import Mathlib

/-!
# Jobify: deriving a one-shot job from a deployment

A shallow embedding of `cmd/jobify/kubernetes.go` and `cmd/jobify/util.go`.

* Go strings are lists of characters (`Str`); the text handled here (annotation
  keys and values, image references, commands) is taken to be valid UTF-8, so a
  byte offset computed by `strings.Index` for an ASCII separator and the
  corresponding character offset cut a string at the same place.
* Go slices are lists; the nil slice and the empty slice are both `[]`.
* A Go `map[string]string` is an optional association list: `none` is the nil
  map, which can be read (every key is absent) but not written.
* A Go panic is an `Except.error` carrying a `GoPanic`.
* The random source used by `randomString` is a parameter: `rnd i` is the raw
  value behind the `i`-th call of `rand.Intn`.
-/

namespace Jobify

/-! ## Strings and maps -/

deriving instance DecidableEq for Except

/-- Go `string`. -/
abbrev Str := List Char

/-- Go `map[string]string`; `none` is the nil map. -/
abbrev StrMap := Option (List (Str × Str))

/-- The comma-ok read `v, ok := m[k]`: `some v` when the key is present, `none`
when it is absent. Reading a nil map finds no key. -/
def mapLookup (m : StrMap) (k : Str) : Option Str :=
  match m with
  | none => none
  | some l => l.lookup k

/-- The plain read `m[k]`: the zero value `""` when the key is absent. -/
def mapIndex (m : StrMap) (k : Str) : Str :=
  (mapLookup m k).getD []

/-- The write `m[k] = v` on a non-nil map: any previous entry of `k` is replaced. -/
def mapStore (l : List (Str × Str)) (k v : Str) : List (Str × Str) :=
  (k, v) :: l.filter (fun p => p.1 != k)

/-- Go `strings.Index` scanning from character offset `i`: the offset of the
first occurrence of `substr`, or `-1`. -/
def stringsIndexFrom (substr : Str) : Str → Nat → Int
  | [], i => if substr = [] then (i : Int) else -1
  | c :: cs, i =>
    if substr.isPrefixOf (c :: cs) then (i : Int) else stringsIndexFrom substr cs (i + 1)

/-- Go `strings.Index(s, substr)`. -/
def stringsIndex (s substr : Str) : Int :=
  stringsIndexFrom substr s 0

/-- Go `strings.Contains(s, substr)`, which is `Index(s, substr) >= 0`. -/
def stringsContains (s substr : Str) : Bool :=
  decide (stringsIndex s substr ≥ 0)

/-- The scan of `strings.Replace(s, old, new, -1)` for a non-empty `old`, left to
right; `skip` counts the characters of a match still to be dropped. -/
def stringsReplaceScan (old new : Str) : Nat → Str → Str
  | _, [] => []
  | skip + 1, _ :: cs => stringsReplaceScan old new skip cs
  | 0, c :: cs =>
    if old.isPrefixOf (c :: cs) then new ++ stringsReplaceScan old new (old.length - 1) cs
    else c :: stringsReplaceScan old new 0 cs

/-- Go `strings.Replace(s, old, new, -1)`: every non-overlapping occurrence of
`old`, leftmost first, is replaced by `new`; the inserted text is not scanned
again. An empty `old` matches before every character and at the end. -/
def stringsReplaceAll (s old new : Str) : Str :=
  if old = [] then new ++ s.flatMap (fun c => c :: new)
  else stringsReplaceScan old new 0 s

/-! ## Annotation keys (`kubernetes.go`, lines 24-33) -/

def CommandTemplateAnnotationKey : Str := "jobify/command-array-template".toList
def PrimaryContainerAnnotationKey : Str := "jobify/primary-container".toList
def DefaultCommandAnnotationKey : Str := "jobify/default-command".toList
def SourceAliasAnnotationKey : Str := "jobify/source-alias".toList
def UserCommandAnnotationKey : Str := "jobify/user-command".toList
def SourceDeploymentAnnotationKey : Str := "jobify/source-deployment".toList
def DeploymentAliasAnnotationKey : Str := "jobify/deployment-alias".toList
def LogsURLTemplateAnnotationKey : Str := "jobify/log-url-template".toList

/-! ## The cluster objects, restricted to the fields the code reads or writes -/

/-- A `corev1.Probe`; its content is never inspected. -/
structure Probe where
  Handler : Str
  deriving DecidableEq, Repr

/-- A `corev1.Container`. `Args` stands for the fields the code never touches. -/
structure Container where
  Name : Str
  Image : Str
  Command : List Str
  Args : List Str
  ReadinessProbe : Option Probe
  LivenessProbe : Option Probe
  deriving DecidableEq, Repr

/-- A `corev1.PodSpec`. -/
structure PodSpec where
  Containers : List Container
  RestartPolicy : Str
  ShareProcessNamespace : Option Bool
  deriving DecidableEq, Repr

/-- A `corev1.PodTemplateSpec`. -/
structure PodTemplateSpec where
  Labels : StrMap
  Annotations : StrMap
  Spec : PodSpec
  deriving DecidableEq, Repr

/-- An `appv1.DeploymentSpec`. -/
structure DeploymentSpec where
  Template : PodTemplateSpec
  deriving DecidableEq, Repr

/-- An `appv1.Deployment`. -/
structure Deployment where
  Name : Str
  Namespace : Str
  Annotations : StrMap
  Spec : DeploymentSpec
  deriving DecidableEq, Repr

/-- A `batchv1.JobCondition`: its type and its status. -/
structure JobCondition where
  CondType : Str
  Status : Str
  deriving DecidableEq, Repr

/-- A `batchv1.JobStatus`. -/
structure JobStatus where
  Conditions : List JobCondition
  deriving DecidableEq, Repr

/-- A `batchv1.JobSpec`; the two pointers are `none` when nil. -/
structure JobSpec where
  BackoffLimit : Option Int
  ActiveDeadlineSeconds : Option Int
  Template : PodTemplateSpec
  deriving DecidableEq, Repr

/-- A `batchv1.Job`. -/
structure Job where
  Name : Str
  Namespace : Str
  Labels : StrMap
  Annotations : StrMap
  Spec : JobSpec
  Status : JobStatus
  deriving DecidableEq, Repr

/-- The run-time panics the code can raise. -/
inductive GoPanic where
  /-- Writing an entry of a nil map. -/
  | nilMapAssignment
  /-- Indexing a slice outside its bounds. -/
  | indexOutOfRange
  /-- The explicit `panic("Primary container not found")`. -/
  | primaryContainerNotFound
  deriving DecidableEq, Repr

/-! ## `validateDeployment` (lines 131-152) -/

/-- The message of the error returned when the command template key is absent. -/
def MissingCommandTemplate : Str :=
  "Deployment doesn't have command template annotation ".toList ++ CommandTemplateAnnotationKey

/-- The message of the error returned when several containers exist and the
primary container key is absent. -/
def MissingPrimaryContainerAnnotation : Str :=
  "Deployment has multiple containers, but doesn't have primary container annotation ".toList
    ++ PrimaryContainerAnnotationKey

/-- The message of the error returned when no container bears the annotated name. -/
def PrimaryContainerNotFound : Str :=
  "Deployment has multiple containers, and none of them matches the name in primary container annotation ".toList
    ++ PrimaryContainerAnnotationKey

/-- The function `validateDeployment`; an error is the message given to `errors.New`,
`Except.ok ()` is the nil error. -/
def validateDeployment (deployment : Deployment) : Except Str Unit :=
  match mapLookup deployment.Annotations CommandTemplateAnnotationKey with
  | none => .error MissingCommandTemplate
  | some _ =>
    let containers := deployment.Spec.Template.Spec.Containers
    if containers.length > 1 then
      match mapLookup deployment.Annotations PrimaryContainerAnnotationKey with
      | none => .error MissingPrimaryContainerAnnotation
      | some primaryContainerName =>
        if containers.any (fun c => decide (c.Name = primaryContainerName)) then .ok ()
        else .error PrimaryContainerNotFound
    else .ok ()

/-! ## `getPrimaryContainer`, `getPrimaryContainerImageTag`, `getDeploymentName` -/

/-- The loop of `getPrimaryContainer`: the index of the first container named `name`. -/
def indexOfName (name : Str) : List Container → Option Nat
  | [] => none
  | c :: cs => if c.Name = name then some 0 else (indexOfName name cs).map (· + 1)

/-- The function `getPrimaryContainer` (lines 241-254). -/
def getPrimaryContainer (deployment : Deployment) : Except GoPanic Nat :=
  let containers := deployment.Spec.Template.Spec.Containers
  if containers.length > 1 then
    let primaryContainer := mapIndex deployment.Annotations PrimaryContainerAnnotationKey
    match indexOfName primaryContainer containers with
    | some i => .ok i
    | none => .error GoPanic.primaryContainerNotFound
  else .ok 0

/-- The function `getPrimaryContainerImageTag` (lines 256-268). -/
def getPrimaryContainerImageTag (deployment : Deployment) (imageTagOverride : Str) :
    Except GoPanic Str :=
  if imageTagOverride ≠ [] then .ok imageTagOverride
  else
    match getPrimaryContainer deployment with
    | .error p => .error p
    | .ok containerIndex =>
      match deployment.Spec.Template.Spec.Containers[containerIndex]? with
      | none => .error GoPanic.indexOutOfRange
      | some c =>
        let imageName := c.Image
        if stringsContains imageName ":".toList then
          let index := stringsIndex imageName ":".toList
          .ok (imageName.drop (index + 1).toNat)
        else .ok []

/-- The function `getDeploymentName` (lines 270-275). -/
def getDeploymentName (deployment : Deployment) : Str :=
  match mapLookup deployment.Annotations DeploymentAliasAnnotationKey with
  | some val => val
  | none => deployment.Name

/-! ## `checkJobCondition` (lines 277-286) -/

def JobComplete : Str := "Complete".toList
def JobFailed : Str := "Failed".toList
def ConditionTrue : Str := "True".toList

/-- The loop of `checkJobCondition` over the remaining conditions. -/
def checkJobConditionLoop : List JobCondition → Bool × Bool
  | [] => (false, false)
  | c :: cs =>
    if c.CondType = JobComplete ∧ c.Status = ConditionTrue then (true, false)
    else if c.CondType = JobFailed ∧ c.Status = ConditionTrue then (false, true)
    else checkJobConditionLoop cs

/-- The function `checkJobCondition`: the pair `(successful, failed)`. -/
def checkJobCondition (job : Job) : Bool × Bool :=
  checkJobConditionLoop job.Status.Conditions

/-! ## `randomString` (`util.go`) -/

def letters : List Char := "abcdefghijklmnopqrstuvwxyz".toList

/-- The function `randomString`: character `i` is `letters[rand.Intn(len(letters))]`,
where the `i`-th call of `rand.Intn(k)` yields `rnd i % k`. -/
def randomString (n : Nat) (rnd : Nat → Nat) : Str :=
  (List.range n).map (fun i => letters.getD (rnd i % letters.length) 'a')

/-! ## `setupJob` (lines 165-224) -/

/-- Lines 180-184: the image name is cut at its first `:` (or kept whole when
`strings.Index` returns `-1`), and `:` and the override are appended. -/
def newImageName (oldImageName imageTagOverride : Str) : Str :=
  let colonIndex := stringsIndex oldImageName ":".toList
  let colonIndex := if colonIndex = -1 then (oldImageName.length : Int) else colonIndex
  oldImageName.take colonIndex.toNat ++ ":".toList ++ imageTagOverride

/-- Lines 178-186: the image of the container at `idx` is rewritten. Indexing
outside the slice panics. -/
def overrideImage (containers : List Container) (idx : Nat) (imageTagOverride : Str) :
    Except GoPanic (List Container) :=
  match containers[idx]? with
  | none => .error GoPanic.indexOutOfRange
  | some c => .ok (containers.set idx { c with Image := newImageName c.Image imageTagOverride })

/-- Lines 188-191: both probes of every container are set to nil. -/
def stripProbes (containers : List Container) : List Container :=
  containers.map (fun c => { c with ReadinessProbe := none, LivenessProbe := none })

/-- Line 193: the command of the container at `idx` is replaced. Indexing outside
the slice panics. -/
def setCommand (containers : List Container) (idx : Nat) (commandArray : List Str) :
    Except GoPanic (List Container) :=
  match containers[idx]? with
  | none => .error GoPanic.indexOutOfRange
  | some c => .ok (containers.set idx { c with Command := commandArray })

/-- Lines 197-221: the job object built around the finished pod template. -/
def assembleJob (deployment : Deployment) (jobName userCommand primaryName : Str)
    (jobTemplate : PodTemplateSpec) : Job :=
  let annotations : List (Str × Str) :=
    [ (SourceDeploymentAnnotationKey, deployment.Name),
      (SourceAliasAnnotationKey, getDeploymentName deployment),
      (UserCommandAnnotationKey, userCommand),
      (PrimaryContainerAnnotationKey, primaryName) ]
  let annotations :=
    match mapLookup deployment.Annotations LogsURLTemplateAnnotationKey with
    | some logURLTemplate => mapStore annotations LogsURLTemplateAnnotationKey logURLTemplate
    | none => annotations
  { Name := jobName
    Namespace := deployment.Namespace
    Labels := some [("job-name".toList, jobName), ("jobify".toList, "true".toList)]
    Annotations := some annotations
    Spec :=
      { BackoffLimit := some 2
        ActiveDeadlineSeconds := some (24 * 60 * 60)
        Template := jobTemplate }
    Status := { Conditions := [] } }

/-- The function `setupJob`. `DeepCopy` is the identity on values; the statements
run in source order, so the first panic reached is the one reported. -/
def setupJob (deployment : Deployment) (commandArray : List Str)
    (imageTagOverride userCommand : Str) (rnd : Nat → Nat) : Except GoPanic Job :=
  let jobName := getDeploymentName deployment ++ "-".toList ++ randomString 5 rnd
  let jobTemplate := deployment.Spec.Template
  match jobTemplate.Annotations with
  | none => .error GoPanic.nilMapAssignment
  | some templateAnnotations =>
    let annotations :=
      mapStore templateAnnotations "cluster-autoscaler.kubernetes.io/safe-to-evict".toList
        "false".toList
    match getPrimaryContainer deployment with
    | .error p => .error p
    | .ok primaryContainerIndex =>
      match (if imageTagOverride ≠ [] then
              overrideImage jobTemplate.Spec.Containers primaryContainerIndex imageTagOverride
             else .ok jobTemplate.Spec.Containers) with
      | .error p => .error p
      | .ok containers =>
        match setCommand (stripProbes containers) primaryContainerIndex commandArray with
        | .error p => .error p
        | .ok containers =>
          let jobTemplate : PodTemplateSpec :=
            { Labels := some []
              Annotations := some annotations
              Spec :=
                { Containers := containers
                  RestartPolicy := "Never".toList
                  ShareProcessNamespace := some true } }
          let primaryName := (containers[primaryContainerIndex]?.map (·.Name)).getD []
          .ok (assembleJob deployment jobName userCommand primaryName jobTemplate)

/-! ## `encoding/json`: the scanner

`setupCommandArray` hands the substituted text to `json.Unmarshal` with a
`[]string` target. `Unmarshal` first runs `checkValid`, a character-driven state
machine (`scanner.go`), over the whole input and touches the target only when the
input is syntactically valid JSON. The machine is embedded state by state. A
multi-byte character is a run of bytes `≥ 0x80`, which the machine accepts inside
a string literal and rejects everywhere else, exactly as it does the single
character here. -/

/-- The `step` field of the scanner: the state function to run on the next
character. -/
inductive ScanStep where
  | beginValueOrEmpty | beginValue | beginStringOrEmpty | beginString | endValue | endTop
  | inString | inStringEsc | inStringEscU | inStringEscU1 | inStringEscU12 | inStringEscU123
  | neg | s1 | s0 | dot | dot0 | e | eSign | e0
  | t | tr | tru | f | fa | fal | fals | n | nu | nul
  | error
  deriving DecidableEq, Repr

/-- An entry of the scanner's `parseState` stack. -/
inductive ParseState where
  | objectKey | objectValue | arrayValue
  deriving DecidableEq, Repr

/-- The scanner. `parseState` lists the open composite values, innermost first.
The state `ScanStep.error` stands for a scanner whose `err` field is set. -/
structure Scanner where
  step : ScanStep
  endTop : Bool
  parseState : List ParseState
  deriving DecidableEq, Repr

/-- The function `isSpace` of the scanner. -/
def isSpace (c : Char) : Bool :=
  c == ' ' || c == '\t' || c == '\r' || c == '\n'

def isDigit (c : Char) : Bool :=
  decide ('0' ≤ c ∧ c ≤ '9')

def isHex (c : Char) : Bool :=
  decide ('0' ≤ c ∧ c ≤ '9') || decide ('a' ≤ c ∧ c ≤ 'f') || decide ('A' ≤ c ∧ c ≤ 'F')

/-- The method `scanner.error`: the scanner enters the error state. -/
def Scanner.fail (s : Scanner) : Scanner :=
  { s with step := ScanStep.error }

/-- The method `scanner.reset`. -/
def Scanner.reset : Scanner :=
  { step := ScanStep.beginValue, endTop := false, parseState := [] }

def maxNestingDepth : Nat := 10000

/-- The method `pushParseState`: nesting deeper than `maxNestingDepth` is an error. -/
def Scanner.pushParseState (s : Scanner) (newParseState : ParseState) : Scanner :=
  let s := { s with parseState := newParseState :: s.parseState }
  if s.parseState.length ≤ maxNestingDepth then s else s.fail

/-- The method `popParseState`. -/
def Scanner.popParseState (s : Scanner) : Scanner :=
  match s.parseState.tail with
  | [] => { s with parseState := [], step := ScanStep.endTop, endTop := true }
  | p :: ps => { s with parseState := p :: ps, step := ScanStep.endValue }

def stateEndTop (s : Scanner) (c : Char) : Scanner :=
  if isSpace c then s else s.fail

def stateEndValue (s : Scanner) (c : Char) : Scanner :=
  match s.parseState with
  | [] => stateEndTop { s with step := ScanStep.endTop, endTop := true } c
  | ps :: rest =>
    if isSpace c then { s with step := ScanStep.endValue }
    else
      match ps with
      | ParseState.objectKey =>
        if c = ':' then
          { s with parseState := ParseState.objectValue :: rest, step := ScanStep.beginValue }
        else s.fail
      | ParseState.objectValue =>
        if c = ',' then
          { s with parseState := ParseState.objectKey :: rest, step := ScanStep.beginString }
        else if c = '}' then s.popParseState
        else s.fail
      | ParseState.arrayValue =>
        if c = ',' then { s with step := ScanStep.beginValue }
        else if c = ']' then s.popParseState
        else s.fail

def stateBeginValue (s : Scanner) (c : Char) : Scanner :=
  if isSpace c then s
  else if c = '{' then
    Scanner.pushParseState { s with step := ScanStep.beginStringOrEmpty } ParseState.objectKey
  else if c = '[' then
    Scanner.pushParseState { s with step := ScanStep.beginValueOrEmpty } ParseState.arrayValue
  else if c = '"' then { s with step := ScanStep.inString }
  else if c = '-' then { s with step := ScanStep.neg }
  else if c = '0' then { s with step := ScanStep.s0 }
  else if c = 't' then { s with step := ScanStep.t }
  else if c = 'f' then { s with step := ScanStep.f }
  else if c = 'n' then { s with step := ScanStep.n }
  else if '1' ≤ c ∧ c ≤ '9' then { s with step := ScanStep.s1 }
  else s.fail

def stateBeginValueOrEmpty (s : Scanner) (c : Char) : Scanner :=
  if isSpace c then s
  else if c = ']' then stateEndValue s c
  else stateBeginValue s c

def stateBeginString (s : Scanner) (c : Char) : Scanner :=
  if isSpace c then s
  else if c = '"' then { s with step := ScanStep.inString }
  else s.fail

def stateBeginStringOrEmpty (s : Scanner) (c : Char) : Scanner :=
  if isSpace c then s
  else if c = '}' then
    stateEndValue { s with parseState := ParseState.objectValue :: s.parseState.tail } c
  else stateBeginString s c

def stateInString (s : Scanner) (c : Char) : Scanner :=
  if c = '"' then { s with step := ScanStep.endValue }
  else if c = '\\' then { s with step := ScanStep.inStringEsc }
  else if c.toNat < 0x20 then s.fail
  else s

def stateInStringEsc (s : Scanner) (c : Char) : Scanner :=
  if c = 'b' ∨ c = 'f' ∨ c = 'n' ∨ c = 'r' ∨ c = 't' ∨ c = '\\' ∨ c = '/' ∨ c = '"' then
    { s with step := ScanStep.inString }
  else if c = 'u' then { s with step := ScanStep.inStringEscU }
  else s.fail

/-- The four states `stateInStringEscU` to `stateInStringEscU123`: a hexadecimal
digit leads to `next`. -/
def stateHex (next : ScanStep) (s : Scanner) (c : Char) : Scanner :=
  if isHex c then { s with step := next } else s.fail

def state0 (s : Scanner) (c : Char) : Scanner :=
  if c = '.' then { s with step := ScanStep.dot }
  else if c = 'e' ∨ c = 'E' then { s with step := ScanStep.e }
  else stateEndValue s c

def state1 (s : Scanner) (c : Char) : Scanner :=
  if isDigit c then { s with step := ScanStep.s1 } else state0 s c

def stateNeg (s : Scanner) (c : Char) : Scanner :=
  if c = '0' then { s with step := ScanStep.s0 }
  else if '1' ≤ c ∧ c ≤ '9' then { s with step := ScanStep.s1 }
  else s.fail

def stateDot (s : Scanner) (c : Char) : Scanner :=
  if isDigit c then { s with step := ScanStep.dot0 } else s.fail

def stateDot0 (s : Scanner) (c : Char) : Scanner :=
  if isDigit c then s
  else if c = 'e' ∨ c = 'E' then { s with step := ScanStep.e }
  else stateEndValue s c

def stateESign (s : Scanner) (c : Char) : Scanner :=
  if isDigit c then { s with step := ScanStep.e0 } else s.fail

def stateE (s : Scanner) (c : Char) : Scanner :=
  if c = '+' ∨ c = '-' then { s with step := ScanStep.eSign } else stateESign s c

def stateE0 (s : Scanner) (c : Char) : Scanner :=
  if isDigit c then s else stateEndValue s c

/-- The states inside the literals `true`, `false` and `null`: the expected
letter leads to `next`. -/
def stateLetter (expected : Char) (next : ScanStep) (s : Scanner) (c : Char) : Scanner :=
  if c = expected then { s with step := next } else s.fail

/-- One call `s.step(s, c)`. -/
def Scanner.next (s : Scanner) (c : Char) : Scanner :=
  match s.step with
  | ScanStep.beginValueOrEmpty => stateBeginValueOrEmpty s c
  | ScanStep.beginValue => stateBeginValue s c
  | ScanStep.beginStringOrEmpty => stateBeginStringOrEmpty s c
  | ScanStep.beginString => stateBeginString s c
  | ScanStep.endValue => stateEndValue s c
  | ScanStep.endTop => stateEndTop s c
  | ScanStep.inString => stateInString s c
  | ScanStep.inStringEsc => stateInStringEsc s c
  | ScanStep.inStringEscU => stateHex ScanStep.inStringEscU1 s c
  | ScanStep.inStringEscU1 => stateHex ScanStep.inStringEscU12 s c
  | ScanStep.inStringEscU12 => stateHex ScanStep.inStringEscU123 s c
  | ScanStep.inStringEscU123 => stateHex ScanStep.inString s c
  | ScanStep.neg => stateNeg s c
  | ScanStep.s1 => state1 s c
  | ScanStep.s0 => state0 s c
  | ScanStep.dot => stateDot s c
  | ScanStep.dot0 => stateDot0 s c
  | ScanStep.e => stateE s c
  | ScanStep.eSign => stateESign s c
  | ScanStep.e0 => stateE0 s c
  | ScanStep.t => stateLetter 'r' ScanStep.tr s c
  | ScanStep.tr => stateLetter 'u' ScanStep.tru s c
  | ScanStep.tru => stateLetter 'e' ScanStep.endValue s c
  | ScanStep.f => stateLetter 'a' ScanStep.fa s c
  | ScanStep.fa => stateLetter 'l' ScanStep.fal s c
  | ScanStep.fal => stateLetter 's' ScanStep.fals s c
  | ScanStep.fals => stateLetter 'e' ScanStep.endValue s c
  | ScanStep.n => stateLetter 'u' ScanStep.nu s c
  | ScanStep.nu => stateLetter 'l' ScanStep.nul s c
  | ScanStep.nul => stateLetter 'l' ScanStep.endValue s c
  | ScanStep.error => s

/-- The method `scanner.eof`: `true` when the input read so far is a complete
JSON value. -/
def Scanner.eof (s : Scanner) : Bool :=
  if s.step = ScanStep.error then false
  else if s.endTop then true
  else (s.next ' ').endTop

/-- The function `checkValid`: `true` when the data is syntactically valid JSON. -/
def checkValid (data : Str) : Bool :=
  (data.foldl Scanner.next Scanner.reset).eof

/-! ## `encoding/json`: decoding into a `[]string`

After `checkValid` has accepted the data, `Unmarshal` walks it again with the
same scanner and stores into the target. For a `*[]string` target: a top-level
array makes one slice element per array element, in order; an element that is a
string literal is stored unquoted, `null` leaves the element at its zero value
`""`, and a number, boolean, array or object leaves it at `""` and records an
`UnmarshalTypeError`, after which decoding continues. A top-level `null` leaves
the target nil; any other top-level value records an `UnmarshalTypeError` and
leaves the target untouched. The walk below follows the scanner and performs
these stores. -/

def hexValue (c : Char) : Option Nat :=
  if '0' ≤ c ∧ c ≤ '9' then some (c.toNat - '0'.toNat)
  else if 'a' ≤ c ∧ c ≤ 'f' then some (c.toNat - 'a'.toNat + 10)
  else if 'A' ≤ c ∧ c ≤ 'F' then some (c.toNat - 'A'.toNat + 10)
  else none

/-- The function `getu4`: the value of the escape `\uXXXX` the text starts with;
`none` is the `-1` returned when there is no such escape. -/
def getu4 : Str → Option Nat
  | b :: u :: h1 :: h2 :: h3 :: h4 :: _ =>
    if b = '\\' ∧ u = 'u' then
      match hexValue h1, hexValue h2, hexValue h3, hexValue h4 with
      | some v1, some v2, some v3, some v4 => some (((v1 * 16 + v2) * 16 + v3) * 16 + v4)
      | _, _, _, _ => none
    else none
  | _ => none

/-- The character a one-letter escape stands for. -/
def escapeChar (e : Char) : Char :=
  if e = 'b' then Char.ofNat 8
  else if e = 'f' then Char.ofNat 12
  else if e = 'n' then '\n'
  else if e = 'r' then '\r'
  else if e = 't' then '\t'
  else e

def replacementChar : Char := Char.ofNat 0xFFFD

/-- The loop of `unquoteBytes` over the text between the quotes of a literal the
scanner has accepted; `skip` counts the characters of an escape still to be
dropped. A `\u` escape of a surrogate is combined with a following low surrogate
escape, and is the replacement character otherwise. -/
def unquoteScan : Nat → Str → Str
  | _, [] => []
  | skip + 1, _ :: cs => unquoteScan skip cs
  | 0, c :: cs =>
    if c = '\\' then
      match cs with
      | [] => []
      | e :: _ =>
        if e = 'u' then
          match getu4 (c :: cs) with
          | none => []
          | some rr =>
            if 0xD800 ≤ rr ∧ rr < 0xE000 then
              match getu4 (cs.drop 5) with
              | some rr1 =>
                if rr < 0xDC00 ∧ 0xDC00 ≤ rr1 ∧ rr1 < 0xE000 then
                  Char.ofNat ((rr - 0xD800) * 1024 + (rr1 - 0xDC00) + 0x10000)
                    :: unquoteScan 11 cs
                else replacementChar :: unquoteScan 5 cs
              | none => replacementChar :: unquoteScan 5 cs
            else Char.ofNat rr :: unquoteScan 5 cs
        else escapeChar e :: unquoteScan 1 cs
    else c :: unquoteScan 0 cs

/-- The function `unquote` applied to the text between the quotes. -/
def unquote (raw : Str) : Str :=
  unquoteScan 0 raw

/-- The errors `json.Unmarshal` returns. -/
inductive JsonError where
  | syntaxError
  | unmarshalTypeError
  deriving DecidableEq, Repr

/-- The decoder: the scanner, the slice built so far, the text of the string
literal being read as an element of the top-level array (between its quotes), and
whether an `UnmarshalTypeError` has been saved. -/
structure DecodeState where
  scan : Scanner
  arr : List Str
  literal : Option Str
  savedError : Bool
  deriving DecidableEq, Repr

def DecodeState.init : DecodeState :=
  { scan := Scanner.reset, arr := [], literal := none, savedError := false }

/-- The decoder reads one character. -/
def DecodeState.next (d : DecodeState) (c : Char) : DecodeState :=
  let scan := d.scan.next c
  match d.literal with
  | some raw =>
    if d.scan.step = ScanStep.inString ∧ c = '"' then
      { d with scan := scan, arr := d.arr ++ [unquote raw], literal := none }
    else { d with scan := scan, literal := some (raw ++ [c]) }
  | none =>
    if isSpace c then { d with scan := scan }
    else if d.scan.parseState = [ParseState.arrayValue] ∧
        (d.scan.step = ScanStep.beginValue ∨
          (d.scan.step = ScanStep.beginValueOrEmpty ∧ c ≠ ']')) then
      if c = '"' then { d with scan := scan, literal := some [] }
      else if c = 'n' then { d with scan := scan, arr := d.arr ++ [[]] }
      else { d with scan := scan, arr := d.arr ++ [[]], savedError := true }
    else if d.scan.parseState = [] ∧ d.scan.step = ScanStep.beginValue then
      if c = '[' ∨ c = 'n' then { d with scan := scan }
      else { d with scan := scan, savedError := true }
    else { d with scan := scan }

/-- The call `json.Unmarshal(data, &arr)` with `var arr []string`: the final value
of `arr` and the error returned. Data that is not valid JSON leaves `arr` nil. -/
def jsonUnmarshal (data : Str) : List Str × Option JsonError :=
  if checkValid data then
    let d := data.foldl DecodeState.next DecodeState.init
    (d.arr, if d.savedError then some JsonError.unmarshalTypeError else none)
  else ([], some JsonError.syntaxError)

/-! ## `setupCommandArray` (lines 123-129) -/

/-- The function `setupCommandArray`: the error of `json.Unmarshal` is assigned to
the blank identifier and `arr` is returned as it is. -/
def setupCommandArray (deployment : Deployment) (userCommand : Str) : List Str :=
  let commandTemplate := mapIndex deployment.Annotations CommandTemplateAnnotationKey
  let commandArrayString :=
    stringsReplaceAll commandTemplate "$JOBIFY_COMMAND".toList userCommand
  (jsonUnmarshal commandArrayString).1

/-! ## Command templates written as arrays of plain string literals -/

/-- The placeholder of the command template. -/
def JobifyCommandToken : Str := "$JOBIFY_COMMAND".toList

/-- A character that stands for itself inside a JSON string literal: not the
double quote, not the backslash, not a control character below `0x20`. -/
def isPlain (c : Char) : Bool :=
  decide (c ≠ '"' ∧ c ≠ '\\' ∧ ¬ c.toNat < 0x20)

/-- An element of a template: the white space before its literal, the text
between the quotes, and the white space after the literal. -/
structure TemplateElem where
  before : Str
  text : Str
  after : Str
  deriving DecidableEq, Repr

/-- The source text of one element. -/
def renderElem (e : TemplateElem) : Str :=
  e.before ++ '"' :: (e.text ++ '"' :: e.after)

/-- The source text of the elements, separated by commas. -/
def renderElems : List TemplateElem → Str
  | [] => []
  | [e] => renderElem e
  | e :: e' :: es => renderElem e ++ ',' :: renderElems (e' :: es)

/-- The source text of a JSON array of string literals: white space `lead`, the
opening bracket, white space `inner`, the elements, the closing bracket, white
space `trail`. -/
def renderArray (lead inner : Str) (elems : List TemplateElem) (trail : Str) : Str :=
  lead ++ '[' :: (inner ++ (renderElems elems ++ ']' :: trail))

/-- Every character of the text is JSON white space. -/
def isBlank (s : Str) : Prop :=
  ∀ c ∈ s, isSpace c = true

/-! ## Concrete deployments used as test inputs -/

/-- A container with the given name and image and nothing else. -/
def plainContainer (name image : Str) : Container :=
  { Name := name, Image := image, Command := [], Args := [],
    ReadinessProbe := none, LivenessProbe := none }

/-- A deployment `demo` in namespace `prod` with the given annotations, pod
template annotations and containers. -/
def mkDeployment (annotations templateAnnotations : StrMap) (containers : List Container) :
    Deployment :=
  { Name := "demo".toList
    Namespace := "prod".toList
    Annotations := annotations
    Spec :=
      { Template :=
          { Labels := some [("app".toList, "demo".toList)]
            Annotations := templateAnnotations
            Spec :=
              { Containers := containers
                RestartPolicy := "Always".toList
                ShareProcessNamespace := none } } } }

/-- Two containers, `web` and `sidecar`. -/
def twoContainers : List Container :=
  [plainContainer "web".toList "app:1.0".toList, plainContainer "sidecar".toList "proxy:2".toList]

/-- Two containers and no annotation at all. -/
def bareTwoContainerDeployment : Deployment :=
  mkDeployment none (some []) twoContainers

/-- Two containers, a command template, and no primary container annotation. -/
def templateOnlyTwoContainerDeployment : Deployment :=
  mkDeployment (some [(CommandTemplateAnnotationKey, "[\"sh\",\"-c\",\"$JOBIFY_COMMAND\"]".toList)])
    (some []) twoContainers

/-- Two containers, a command template, and a primary container annotation that
names no container. -/
def wrongPrimaryDeployment : Deployment :=
  mkDeployment
    (some [(CommandTemplateAnnotationKey, "[\"sh\",\"-c\",\"$JOBIFY_COMMAND\"]".toList),
           (PrimaryContainerAnnotationKey, "worker".toList)])
    (some []) twoContainers

/-- One container and the command template `["sh","-c","$JOBIFY_COMMAND"]`. -/
def shellDeployment : Deployment :=
  mkDeployment (some [(CommandTemplateAnnotationKey, "[\"sh\",\"-c\",\"$JOBIFY_COMMAND\"]".toList)])
    (some []) [plainContainer "web".toList "app:1.0".toList]

/-- One container whose image lives in a registry addressed with a port. -/
def registryPortDeployment : Deployment :=
  mkDeployment (some [(CommandTemplateAnnotationKey, "[\"$JOBIFY_COMMAND\"]".toList)])
    (some []) [plainContainer "web".toList "registry:5000/img:v1".toList]

/-- The deployment of the end-to-end scenario: one container `web` with image
`app:1.0` and the command template `["node","$JOBIFY_COMMAND"]`; its pod template
carries an empty, non-nil annotation map. -/
def scenarioDeployment : Deployment :=
  mkDeployment (some [(CommandTemplateAnnotationKey, "[\"node\",\"$JOBIFY_COMMAND\"]".toList)])
    (some []) [plainContainer "web".toList "app:1.0".toList]

/-- The deployment of the end-to-end scenario as the cluster delivers it when the
pod template has no annotations: the annotation map of the template is nil. -/
def scenarioDeploymentBareTemplate : Deployment :=
  mkDeployment (some [(CommandTemplateAnnotationKey, "[\"node\",\"$JOBIFY_COMMAND\"]".toList)])
    none [plainContainer "web".toList "app:1.0".toList]

/-- A job whose conditions are the given `(type, status)` pairs. -/
def jobWithConditions (conds : List (Str × Str)) : Job :=
  { Name := "demo-aaaaa".toList, Namespace := "prod".toList, Labels := none, Annotations := none
    Spec :=
      { BackoffLimit := some 2, ActiveDeadlineSeconds := some 86400
        Template :=
          { Labels := none, Annotations := none
            Spec := { Containers := [], RestartPolicy := "Never".toList,
                      ShareProcessNamespace := some true } } }
    Status := { Conditions := conds.map (fun p => { CondType := p.1, Status := p.2 }) } }

/-- A deployment with probes: `web` has both probes and is the primary container,
`sidecar` has a readiness probe and its own command. -/
def probedDeployment : Deployment :=
  mkDeployment
    (some [(CommandTemplateAnnotationKey, "[\"sh\",\"-c\",\"$JOBIFY_COMMAND\"]".toList),
           (PrimaryContainerAnnotationKey, "web".toList)])
    (some [])
    [ { Name := "web".toList, Image := "app:1.0".toList, Command := ["serve".toList], Args := [],
        ReadinessProbe := some { Handler := "http /ready".toList },
        LivenessProbe := some { Handler := "http /live".toList } },
      { Name := "sidecar".toList, Image := "proxy:2".toList, Command := ["proxy".toList],
        Args := ["--port".toList], ReadinessProbe := some { Handler := "tcp 80".toList },
        LivenessProbe := none } ]

/-- The job built from `probedDeployment` with the command `echo hi` and the
override `v2`, the random source always drawing `0`. -/
def probedJob : Job :=
  { Name := "demo-aaaaa".toList
    Namespace := "prod".toList
    Labels := some [("job-name".toList, "demo-aaaaa".toList), ("jobify".toList, "true".toList)]
    Annotations := some
      [ (SourceDeploymentAnnotationKey, "demo".toList),
        (SourceAliasAnnotationKey, "demo".toList),
        (UserCommandAnnotationKey, "echo hi".toList),
        (PrimaryContainerAnnotationKey, "web".toList) ]
    Spec :=
      { BackoffLimit := some 2
        ActiveDeadlineSeconds := some 86400
        Template :=
          { Labels := some []
            Annotations := some
              [("cluster-autoscaler.kubernetes.io/safe-to-evict".toList, "false".toList)]
            Spec :=
              { Containers :=
                  [ { Name := "web".toList, Image := "app:v2".toList,
                      Command := ["sh".toList, "-c".toList, "echo hi".toList], Args := [],
                      ReadinessProbe := none, LivenessProbe := none },
                    { Name := "sidecar".toList, Image := "proxy:2".toList,
                      Command := ["proxy".toList], Args := ["--port".toList],
                      ReadinessProbe := none, LivenessProbe := none } ]
                RestartPolicy := "Never".toList
                ShareProcessNamespace := some true } } }
    Status := { Conditions := [] } }

/-- A deployment with a command template and no container at all. -/
def emptyDeployment : Deployment :=
  mkDeployment (some [(CommandTemplateAnnotationKey, "[\"$JOBIFY_COMMAND\"]".toList)])
    (some []) []

/-- Two containers with `sidecar` as the primary one, a deployment alias that is
present with the empty value, and a log URL template. -/
def aliasedDeployment : Deployment :=
  mkDeployment
    (some [(CommandTemplateAnnotationKey, "[\"$JOBIFY_COMMAND\"]".toList),
           (PrimaryContainerAnnotationKey, "sidecar".toList),
           (DeploymentAliasAnnotationKey, []),
           (LogsURLTemplateAnnotationKey, "https://logs.example/$JOB".toList)])
    (some []) twoContainers

/-- The job built from `aliasedDeployment` with the command `ls -l`, no override,
the random source always drawing `0`. -/
def aliasedJob : Job :=
  { Name := "-aaaaa".toList
    Namespace := "prod".toList
    Labels := some [("job-name".toList, "-aaaaa".toList), ("jobify".toList, "true".toList)]
    Annotations := some
      [ (LogsURLTemplateAnnotationKey, "https://logs.example/$JOB".toList),
        (SourceDeploymentAnnotationKey, "demo".toList),
        (SourceAliasAnnotationKey, []),
        (UserCommandAnnotationKey, "ls -l".toList),
        (PrimaryContainerAnnotationKey, "sidecar".toList) ]
    Spec :=
      { BackoffLimit := some 2
        ActiveDeadlineSeconds := some 86400
        Template :=
          { Labels := some []
            Annotations := some
              [("cluster-autoscaler.kubernetes.io/safe-to-evict".toList, "false".toList)]
            Spec :=
              { Containers :=
                  [ plainContainer "web".toList "app:1.0".toList,
                    { Name := "sidecar".toList, Image := "proxy:2".toList,
                      Command := ["ls -l".toList], Args := [],
                      ReadinessProbe := none, LivenessProbe := none } ]
                RestartPolicy := "Never".toList
                ShareProcessNamespace := some true } } }
    Status := { Conditions := [] } }

/-! ## Auxiliary definitions for the proofs -/

/-- The job name of a run: the deployment name, a dash, and five random letters. -/
def jobNameOf (d : Deployment) (rnd : Nat → Nat) : Str :=
  getDeploymentName d ++ "-".toList ++ randomString 5 rnd

/-- The element whose text has every placeholder replaced by the user command. -/
def substElem (u : Str) (e : TemplateElem) : TemplateElem :=
  { e with text := stringsReplaceAll e.text JobifyCommandToken u }

/-- The decoder inside the top-level array, between two literals. -/
def arrayState (step : ScanStep) (acc : List Str) : DecodeState :=
  { scan := { step := step, endTop := false, parseState := [ParseState.arrayValue] }
    arr := acc, literal := none, savedError := false }

/-- The decoder inside a string literal of the top-level array. -/
def literalState (acc : List Str) (raw : Str) : DecodeState :=
  { scan := { step := ScanStep.inString, endTop := false,
              parseState := [ParseState.arrayValue] }
    arr := acc, literal := some raw, savedError := false }

/-- The decoder after the closing bracket of the top-level array. -/
def doneState (acc : List Str) : DecodeState :=
  { scan := { step := ScanStep.endTop, endTop := true, parseState := [] }
    arr := acc, literal := none, savedError := false }

/-! ## Validation -/

theorem any_name_iff (containers : List Container) (v : Str) :
    containers.any (fun c => decide (c.Name = v)) = true ↔ ∃ c ∈ containers, c.Name = v := by
  simp [List.any_eq_true]

/-- C2. `validateDeployment` succeeds exactly when the command template key is
present and either there is at most one container or the primary container key is
present with the name of some container. It fails with `MissingCommandTemplate`
whenever the template key is absent, with `MissingPrimaryContainerAnnotation` when
the template is present, there are two or more containers and the primary key is
absent, and with `PrimaryContainerNotFound` when the template is present, there
are two or more containers and the annotated name matches no container. Presence
is by key: a template annotation with the empty value is present. -/
theorem validateDeployment_characterisation (d : Deployment) :
    (validateDeployment d = .ok () ↔
      (mapLookup d.Annotations CommandTemplateAnnotationKey).isSome = true ∧
        (d.Spec.Template.Spec.Containers.length ≤ 1 ∨
          ∃ v, mapLookup d.Annotations PrimaryContainerAnnotationKey = some v ∧
            ∃ c ∈ d.Spec.Template.Spec.Containers, c.Name = v)) ∧
    (mapLookup d.Annotations CommandTemplateAnnotationKey = none →
      validateDeployment d = .error MissingCommandTemplate) ∧
    ((mapLookup d.Annotations CommandTemplateAnnotationKey).isSome = true →
      2 ≤ d.Spec.Template.Spec.Containers.length →
      mapLookup d.Annotations PrimaryContainerAnnotationKey = none →
      validateDeployment d = .error MissingPrimaryContainerAnnotation) ∧
    ((mapLookup d.Annotations CommandTemplateAnnotationKey).isSome = true →
      2 ≤ d.Spec.Template.Spec.Containers.length →
      ∀ v, mapLookup d.Annotations PrimaryContainerAnnotationKey = some v →
        (∀ c ∈ d.Spec.Template.Spec.Containers, c.Name ≠ v) →
        validateDeployment d = .error PrimaryContainerNotFound) ∧
    (mapLookup d.Annotations CommandTemplateAnnotationKey = some [] →
      d.Spec.Template.Spec.Containers.length ≤ 1 → validateDeployment d = .ok ()) := by
  unfold validateDeployment
  cases hT : mapLookup d.Annotations CommandTemplateAnnotationKey with
  | none => simp
  | some t =>
    by_cases hlen : d.Spec.Template.Spec.Containers.length > 1
    · have h2 : 2 ≤ d.Spec.Template.Spec.Containers.length := hlen
      have h1 : ¬ d.Spec.Template.Spec.Containers.length ≤ 1 := by omega
      cases hP : mapLookup d.Annotations PrimaryContainerAnnotationKey with
      | none => simp [hlen, h1]
      | some v =>
        by_cases hany : d.Spec.Template.Spec.Containers.any (fun c => decide (c.Name = v)) = true
        · have hex := (any_name_iff _ v).1 hany
          simp only [hlen, hany, if_true]
          refine ⟨?_, ?_, ?_, ?_, ?_⟩
          · simp [hex]
          · simp
          · simp
          · intro _ _ w hw hall
            cases hw
            obtain ⟨c, hc, hcn⟩ := hex
            exact absurd hcn (hall c hc)
          · intro _ hle; omega
        · have hnex : ¬ ∃ c ∈ d.Spec.Template.Spec.Containers, c.Name = v :=
            fun h => hany ((any_name_iff _ v).2 h)
          simp only [hlen, hany, if_true]
          refine ⟨?_, ?_, ?_, ?_, ?_⟩
          · simp [h1, hnex]
          · simp
          · simp
          · intro _ _ w hw _
            rfl
          · intro _ hle; omega
    · have h1 : d.Spec.Template.Spec.Containers.length ≤ 1 := by omega
      simp [hlen, h1]
      omega

/-- The characterisation applied to a deployment whose primary container
annotation names no container. -/
theorem validateDeployment_characterisation_witness :
    validateDeployment wrongPrimaryDeployment = .error PrimaryContainerNotFound :=
  (validateDeployment_characterisation wrongPrimaryDeployment).2.2.2.1
    (by decide) (by decide) "worker".toList (by decide) (by decide)

/-- C3, as stated, fails: a deployment with two containers and no annotation at
all is rejected with `MissingCommandTemplate`, not with
`MissingPrimaryContainerAnnotation`. -/
theorem validateDeployment_template_checked_first :
    2 ≤ bareTwoContainerDeployment.Spec.Template.Spec.Containers.length ∧
    mapLookup bareTwoContainerDeployment.Annotations PrimaryContainerAnnotationKey = none ∧
    validateDeployment bareTwoContainerDeployment = .error MissingCommandTemplate ∧
    validateDeployment bareTwoContainerDeployment ≠ .error MissingPrimaryContainerAnnotation := by
  decide

/-- C3, amended. For every deployment with two or more containers and no primary
container annotation, `validateDeployment` fails: with
`MissingPrimaryContainerAnnotation` when the command template annotation is
present, and with `MissingCommandTemplate` when it is absent. -/
theorem validateDeployment_missing_primary (d : Deployment)
    (hlen : 2 ≤ d.Spec.Template.Spec.Containers.length)
    (hprim : mapLookup d.Annotations PrimaryContainerAnnotationKey = none) :
    validateDeployment d =
      if (mapLookup d.Annotations CommandTemplateAnnotationKey).isSome
      then .error MissingPrimaryContainerAnnotation
      else .error MissingCommandTemplate := by
  unfold validateDeployment
  have hgt : d.Spec.Template.Spec.Containers.length > 1 := hlen
  cases hT : mapLookup d.Annotations CommandTemplateAnnotationKey with
  | none => simp
  | some t => simp [hgt, hprim]

/-- The amended C3 at a deployment with a command template, two containers and no
primary container annotation. -/
theorem validateDeployment_missing_primary_witness :
    validateDeployment templateOnlyTwoContainerDeployment
      = .error MissingPrimaryContainerAnnotation :=
  validateDeployment_missing_primary templateOnlyTwoContainerDeployment (by decide) (by decide)

/-! ## Image tag resolution -/

/-- C4, behaviour of the code at an image reference with two colons: with an empty
override, `getPrimaryContainerImageTag` returns what follows the FIRST `:` of
`registry:5000/img:v1`, namely `5000/img:v1`, and not the tag `v1` that follows
the last one. -/
theorem getPrimaryContainerImageTag_cuts_at_first_colon :
    getPrimaryContainerImageTag registryPortDeployment [] = .ok "5000/img:v1".toList ∧
    getPrimaryContainerImageTag registryPortDeployment [] ≠ .ok "v1".toList := by
  decide

/-- The three sample values of the specification are computed as stated. -/
theorem getPrimaryContainerImageTag_samples :
    getPrimaryContainerImageTag
        (mkDeployment none none [plainContainer "web".toList "repo/img:v1".toList]) []
      = .ok "v1".toList ∧
    getPrimaryContainerImageTag
        (mkDeployment none none [plainContainer "web".toList "repo/img".toList]) []
      = .ok [] ∧
    getPrimaryContainerImageTag
        (mkDeployment none none [plainContainer "web".toList "repo/img:v1".toList]) "v2".toList
      = .ok "v2".toList := by
  decide

/-! ## Job status classification -/

theorem checkJobConditionLoop_skip (pre rest : List JobCondition)
    (hpre : ∀ x ∈ pre,
      ¬ (x.CondType = JobComplete ∧ x.Status = ConditionTrue) ∧
      ¬ (x.CondType = JobFailed ∧ x.Status = ConditionTrue)) :
    checkJobConditionLoop (pre ++ rest) = checkJobConditionLoop rest := by
  induction pre with
  | nil => rfl
  | cons x xs ih =>
    have hx := hpre x (List.mem_cons_self x xs)
    have hxs := ih (fun y hy => hpre y (List.mem_cons_of_mem x hy))
    simp only [List.cons_append, checkJobConditionLoop, hx.1, hx.2, if_false]
    exact hxs

theorem checkJobConditionLoop_ne_both (conds : List JobCondition) :
    checkJobConditionLoop conds ≠ (true, true) := by
  induction conds with
  | nil => simp [checkJobConditionLoop]
  | cons x xs ih =>
    unfold checkJobConditionLoop
    split
    · simp
    · split
      · simp
      · exact ih

/-- C8. `checkJobCondition` is decided by the first condition that is a true
`Complete` or a true `Failed`: with no such condition the result is
`(false, false)`; when the earliest one (everything before it matching neither
test) is a true `Complete` the result is `(true, false)`, and when it is a true
`Failed` the result is `(false, true)`, whatever follows it. The result is never
`(true, true)`. -/
theorem checkJobCondition_first_match (job : Job) :
    ((∀ x ∈ job.Status.Conditions,
        ¬ (x.CondType = JobComplete ∧ x.Status = ConditionTrue) ∧
        ¬ (x.CondType = JobFailed ∧ x.Status = ConditionTrue)) →
      checkJobCondition job = (false, false)) ∧
    (∀ pre c post, job.Status.Conditions = pre ++ c :: post →
      (∀ x ∈ pre,
        ¬ (x.CondType = JobComplete ∧ x.Status = ConditionTrue) ∧
        ¬ (x.CondType = JobFailed ∧ x.Status = ConditionTrue)) →
      (c.CondType = JobComplete ∧ c.Status = ConditionTrue →
        checkJobCondition job = (true, false)) ∧
      (c.CondType = JobFailed ∧ c.Status = ConditionTrue →
        checkJobCondition job = (false, true))) ∧
    checkJobCondition job ≠ (true, true) := by
  refine ⟨?_, ?_, checkJobConditionLoop_ne_both _⟩
  · intro h
    have := checkJobConditionLoop_skip job.Status.Conditions [] h
    simpa [checkJobCondition, checkJobConditionLoop] using this
  · intro pre c post hsplit hpre
    have hskip := checkJobConditionLoop_skip pre (c :: post) hpre
    unfold checkJobCondition
    rw [hsplit, hskip]
    constructor
    · intro hc
      simp [checkJobConditionLoop, hc.1, hc.2]
    · intro hc
      have hne : ¬ (c.CondType = JobComplete ∧ c.Status = ConditionTrue) := by
        intro h
        have h1 : JobFailed = JobComplete := hc.1.symm.trans h.1
        exact absurd h1 (by decide)
      simp only [checkJobConditionLoop, hne, if_false]
      simp [hc.1, hc.2]

/-- First match wins: a false `Complete`, then a true `Failed`, then a true
`Complete` is classified as failed. -/
theorem checkJobCondition_first_match_witness :
    checkJobCondition
        (jobWithConditions
          [("Complete".toList, "False".toList), ("Failed".toList, "True".toList),
           ("Complete".toList, "True".toList)])
      = (false, true) :=
  ((checkJobCondition_first_match _).2.1
      [{ CondType := "Complete".toList, Status := "False".toList }]
      { CondType := "Failed".toList, Status := "True".toList }
      [{ CondType := "Complete".toList, Status := "True".toList }]
      (by decide) (by decide)).2 (by decide)

/-! ## The job builder -/

theorem map_set_same {β : Type} (f : Container → β) (l : List Container) (i : Nat)
    (c c' : Container) (h : l[i]? = some c) (hf : f c' = f c) :
    (l.set i c').map f = l.map f := by
  apply List.ext_getElem?
  intro n
  by_cases hn : i = n
  · subst hn
    have hlt : i < l.length := by
      by_contra hge
      have : l[i]? = none := List.getElem?_eq_none (by omega)
      rw [this] at h
      cases h
    rw [List.getElem?_map, List.getElem?_map, List.getElem?_set_self hlt, h]
    simp [hf]
  · rw [List.getElem?_map, List.getElem?_map, List.getElem?_set_ne hn]

theorem overrideImage_ok (l l' : List Container) (i : Nat) (ov : Str)
    (h : overrideImage l i ov = .ok l') :
    ∃ c, l[i]? = some c ∧
      l' = l.set i { c with Image := newImageName c.Image ov } := by
  unfold overrideImage at h
  cases hc : l[i]? with
  | none => simp [hc] at h
  | some c =>
    simp only [hc] at h
    exact ⟨c, rfl, (Except.ok.inj h).symm⟩

theorem setCommand_ok (l l' : List Container) (i : Nat) (cmd : List Str)
    (h : setCommand l i cmd = .ok l') :
    ∃ c, l[i]? = some c ∧ l' = l.set i { c with Command := cmd } := by
  unfold setCommand at h
  cases hc : l[i]? with
  | none => simp [hc] at h
  | some c =>
    simp only [hc] at h
    exact ⟨c, rfl, (Except.ok.inj h).symm⟩

/-- What a successful run of `setupJob` went through: the pod template had an
annotation map, the primary container was found at `p`, and the containers of the
job are those of the deployment after the optional image override, the removal
of the probes and the command update at `p`. -/
theorem setupJob_ok (d : Deployment) (cmd : List Str) (ov u : Str) (rnd : Nat → Nat) (job : Job)
    (h : setupJob d cmd ov u rnd = .ok job) :
    ∃ anns p cs cs',
      d.Spec.Template.Annotations = some anns ∧
      getPrimaryContainer d = .ok p ∧
      (if ov ≠ [] then overrideImage d.Spec.Template.Spec.Containers p ov
        else .ok d.Spec.Template.Spec.Containers) = .ok cs ∧
      setCommand (stripProbes cs) p cmd = .ok cs' ∧
      job = assembleJob d (getDeploymentName d ++ "-".toList ++ randomString 5 rnd) u
        ((cs'[p]?.map (·.Name)).getD [])
        { Labels := some []
          Annotations := some (mapStore anns
            "cluster-autoscaler.kubernetes.io/safe-to-evict".toList "false".toList)
          Spec := { Containers := cs', RestartPolicy := "Never".toList,
                    ShareProcessNamespace := some true } } := by
  unfold setupJob at h
  cases ha : d.Spec.Template.Annotations with
  | none => simp [ha] at h
  | some anns =>
    cases hp : getPrimaryContainer d with
    | error e => simp [ha, hp] at h
    | ok p =>
      simp only [ha, hp] at h
      cases hcs : (if ov ≠ [] then overrideImage d.Spec.Template.Spec.Containers p ov
          else .ok d.Spec.Template.Spec.Containers) with
      | error e => simp [hcs] at h
      | ok cs =>
        simp only [hcs] at h
        cases hcs' : setCommand (stripProbes cs) p cmd with
        | error e => simp [hcs'] at h
        | ok cs' =>
          simp only [hcs'] at h
          exact ⟨anns, p, cs, cs', rfl, rfl, hcs, hcs', (Except.ok.inj h).symm⟩

theorem stripProbes_map {β : Type} (f : Container → β) (l : List Container)
    (hf : ∀ c : Container, f { c with ReadinessProbe := none, LivenessProbe := none } = f c) :
    (stripProbes l).map f = l.map f := by
  unfold stripProbes
  rw [List.map_map]
  apply List.map_congr_left
  intro c _
  exact hf c

theorem override_branch_map {β : Type} (f : Container → β) (l cs : List Container) (p : Nat)
    (ov : Str) (hf : ∀ (c : Container) (img : Str), f { c with Image := img } = f c)
    (h : (if ov ≠ [] then overrideImage l p ov else .ok l) = .ok cs) :
    cs.map f = l.map f := by
  by_cases hov : ov ≠ []
  · rw [if_pos hov] at h
    obtain ⟨c, hc, rfl⟩ := overrideImage_ok l cs p ov h
    exact map_set_same f l p c _ hc (hf c _)
  · rw [if_neg hov] at h
    rw [Except.ok.inj h]

theorem setupJob_containers_map {β : Type} (f : Container → β) (d : Deployment)
    (cmd : List Str) (ov u : Str) (rnd : Nat → Nat) (job : Job)
    (hf1 : ∀ (c : Container) (img : Str), f { c with Image := img } = f c)
    (hf2 : ∀ c : Container, f { c with ReadinessProbe := none, LivenessProbe := none } = f c)
    (hf3 : ∀ (c : Container) (x : List Str), f { c with Command := x } = f c)
    (h : setupJob d cmd ov u rnd = .ok job) :
    job.Spec.Template.Spec.Containers.map f = d.Spec.Template.Spec.Containers.map f := by
  obtain ⟨anns, p, cs, cs', _, _, hcs, hcs', rfl⟩ := setupJob_ok d cmd ov u rnd job h
  obtain ⟨c2, hc2, rfl⟩ := setCommand_ok _ _ _ _ hcs'
  show (List.set (stripProbes cs) p _).map f = _
  rw [map_set_same f _ p c2 _ hc2 (hf3 c2 cmd), stripProbes_map f cs hf2,
    override_branch_map f _ cs p ov hf1 hcs]

/-- C9. On every deployment on which `setupJob` succeeds, the pod template of the
job has as many containers as the source, with the same names in the same order;
every container of the job has neither a readiness nor a liveness probe; and the
command of every container other than the primary one (the index returned by
`getPrimaryContainer`) is the command that container has in the source. -/
theorem setupJob_probes_and_other_commands (d : Deployment) (cmd : List Str) (ov u : Str)
    (rnd : Nat → Nat) (job : Job) (h : setupJob d cmd ov u rnd = .ok job) :
    job.Spec.Template.Spec.Containers.length = d.Spec.Template.Spec.Containers.length ∧
    job.Spec.Template.Spec.Containers.map (·.Name)
      = d.Spec.Template.Spec.Containers.map (·.Name) ∧
    (∀ c ∈ job.Spec.Template.Spec.Containers,
      c.ReadinessProbe = none ∧ c.LivenessProbe = none) ∧
    ∃ p, getPrimaryContainer d = .ok p ∧
      ∀ i, i ≠ p →
        job.Spec.Template.Spec.Containers[i]?.map (·.Command)
          = d.Spec.Template.Spec.Containers[i]?.map (·.Command) := by
  have hnames := setupJob_containers_map (·.Name) d cmd ov u rnd job
    (fun _ _ => rfl) (fun _ => rfl) (fun _ _ => rfl) h
  refine ⟨?_, hnames, ?_, ?_⟩
  · simpa using congrArg List.length hnames
  · obtain ⟨anns, p, cs, cs', _, _, _, hcs', rfl⟩ := setupJob_ok d cmd ov u rnd job h
    obtain ⟨c2, hc2, rfl⟩ := setCommand_ok _ _ _ _ hcs'
    have hstripped : ∀ c ∈ stripProbes cs, c.ReadinessProbe = none ∧ c.LivenessProbe = none := by
      intro c hc
      unfold stripProbes at hc
      obtain ⟨c0, _, rfl⟩ := List.mem_map.1 hc
      exact ⟨rfl, rfl⟩
    intro c hc
    have hc' : c ∈ List.set (stripProbes cs) p { c2 with Command := cmd } := hc
    rcases List.mem_or_eq_of_mem_set hc' with hmem | rfl
    · exact hstripped c hmem
    · exact hstripped c2 (List.getElem?_mem hc2)
  · obtain ⟨anns, p, cs, cs', _, hp, hcs, hcs', rfl⟩ := setupJob_ok d cmd ov u rnd job h
    obtain ⟨c2, hc2, rfl⟩ := setCommand_ok _ _ _ _ hcs'
    refine ⟨p, hp, ?_⟩
    intro i hi
    show (List.set (stripProbes cs) p _)[i]?.map (·.Command) = _
    rw [List.getElem?_set_ne (Ne.symm hi), ← List.getElem?_map, ← List.getElem?_map,
      stripProbes_map (·.Command) cs (fun _ => rfl),
      override_branch_map (·.Command) _ cs p ov (fun _ _ => rfl) hcs]

/-- C9 at `probedDeployment`: the job is `probedJob`, whose two containers keep
their names, have no probes, and whose sidecar keeps its command. -/
theorem setupJob_probes_and_other_commands_witness :
    probedJob.Spec.Template.Spec.Containers.length
      = probedDeployment.Spec.Template.Spec.Containers.length ∧
    probedJob.Spec.Template.Spec.Containers.map (·.Name)
      = probedDeployment.Spec.Template.Spec.Containers.map (·.Name) ∧
    (∀ c ∈ probedJob.Spec.Template.Spec.Containers,
      c.ReadinessProbe = none ∧ c.LivenessProbe = none) ∧
    ∃ p, getPrimaryContainer probedDeployment = .ok p ∧
      ∀ i, i ≠ p →
        probedJob.Spec.Template.Spec.Containers[i]?.map (·.Command)
          = probedDeployment.Spec.Template.Spec.Containers[i]?.map (·.Command) :=
  setupJob_probes_and_other_commands probedDeployment
    ["sh".toList, "-c".toList, "echo hi".toList] "v2".toList "echo hi".toList (fun _ => 0)
    probedJob (by decide)

/-- C5, behaviour of the code at an image reference with two colons: with the
override `v2`, `setupJob` turns the image `registry:5000/img:v1` of the primary
container into `registry:v2` (cut at the FIRST `:`), not into
`registry:5000/img:v2` (cut at the last one). -/
theorem setupJob_override_cuts_at_first_colon :
    Except.map (fun j => j.Spec.Template.Spec.Containers.map (·.Image))
        (setupJob registryPortDeployment ["true".toList] "v2".toList "true".toList (fun _ => 0))
      = .ok ["registry:v2".toList] ∧
    Except.map (fun j => j.Spec.Template.Spec.Containers.map (·.Image))
        (setupJob registryPortDeployment ["true".toList] "v2".toList "true".toList (fun _ => 0))
      ≠ .ok ["registry:5000/img:v2".toList] := by
  decide

/-- Two runs of `setupJob` on the same inputs are related by renaming: the second
result is the first one with the name and the two job labels rebuilt from the
second name. -/
theorem setupJob_rename (d : Deployment) (cmd : List Str) (ov u : Str) (rnd1 rnd2 : Nat → Nat) :
    setupJob d cmd ov u rnd2 =
      Except.map
        (fun j => { j with
          Name := jobNameOf d rnd2
          Labels := some [("job-name".toList, jobNameOf d rnd2),
                          ("jobify".toList, "true".toList)] })
        (setupJob d cmd ov u rnd1) := by
  unfold setupJob jobNameOf
  cases ha : d.Spec.Template.Annotations with
  | none => simp only [ha, Except.map]
  | some anns =>
    cases hp : getPrimaryContainer d with
    | error e => simp only [ha, hp, Except.map]
    | ok p =>
      cases hcs : (if ov ≠ [] then overrideImage d.Spec.Template.Spec.Containers p ov
          else .ok d.Spec.Template.Spec.Containers) with
      | error e => simp only [ha, hp, hcs, Except.map]
      | ok cs =>
        cases hcs' : setCommand (stripProbes cs) p cmd with
        | error e => simp only [ha, hp, hcs, hcs', Except.map]
        | ok cs' =>
          simp only [ha, hp, hcs, hcs', Except.map]
          rfl

/-- C7, as stated, fails: two runs on the same inputs whose random draws differ
return jobs whose labels differ too, because the label `job-name` repeats the
generated name. -/
theorem setupJob_twice_labels_differ :
    Except.map Job.Labels (setupJob scenarioDeployment [] [] [] (fun _ => 0))
      = .ok (some [("job-name".toList, "demo-aaaaa".toList), ("jobify".toList, "true".toList)]) ∧
    Except.map Job.Labels (setupJob scenarioDeployment [] [] [] (fun _ => 1))
      = .ok (some [("job-name".toList, "demo-bbbbb".toList), ("jobify".toList, "true".toList)]) ∧
    Except.map Job.Labels (setupJob scenarioDeployment [] [] [] (fun _ => 0))
      ≠ Except.map Job.Labels (setupJob scenarioDeployment [] [] [] (fun _ => 1)) :=
  ⟨by decide, by decide, by decide⟩

/-- C7, amended. For every deployment, command, override and user command and any
two random draws, the two runs of `setupJob` end alike: if the first returns a job
so does the second, and the two jobs have the same namespace, annotations, spec
(backoff limit, deadline and the whole pod template) and status, and the same
labels except for `job-name`, which in each job holds that job's own name; if the
first run panics, the second panics in the same way. -/
theorem setupJob_twice (d : Deployment) (cmd : List Str) (ov u : Str) (rnd1 rnd2 : Nat → Nat) :
    (∀ j1, setupJob d cmd ov u rnd1 = .ok j1 →
      ∃ j2, setupJob d cmd ov u rnd2 = .ok j2 ∧
        j1.Namespace = j2.Namespace ∧ j1.Annotations = j2.Annotations ∧
        j1.Spec = j2.Spec ∧ j1.Status = j2.Status ∧
        (∀ k, k ≠ "job-name".toList → mapLookup j1.Labels k = mapLookup j2.Labels k) ∧
        mapLookup j1.Labels "job-name".toList = some j1.Name ∧
        mapLookup j2.Labels "job-name".toList = some j2.Name ∧
        j1.Name = getDeploymentName d ++ "-".toList ++ randomString 5 rnd1 ∧
        j2.Name = getDeploymentName d ++ "-".toList ++ randomString 5 rnd2) ∧
    (∀ p, setupJob d cmd ov u rnd1 = .error p → setupJob d cmd ov u rnd2 = .error p) := by
  have hren := setupJob_rename d cmd ov u rnd1 rnd2
  constructor
  · intro j1 h1
    rw [h1] at hren
    refine ⟨_, hren, ?_⟩
    obtain ⟨anns, p, cs, cs', _, _, _, _, rfl⟩ := setupJob_ok d cmd ov u rnd1 j1 h1
    refine ⟨rfl, rfl, rfl, rfl, ?_, ?_, ?_, rfl, rfl⟩
    · intro k hk
      have hk' : (k == "job-name".toList) = false := by
        simpa [beq_eq_false_iff_ne] using hk
      simp only [assembleJob, mapLookup, List.lookup, hk']
    · simp [assembleJob, mapLookup, List.lookup]
    · simp [mapLookup, List.lookup, jobNameOf]
  · intro p h1
    rw [h1] at hren
    exact hren

/-- The amended C7 at the scenario deployment with the draws `0` and `1`: the
second run returns a job as well. -/
theorem setupJob_twice_witness :
    ∃ j2, setupJob scenarioDeployment [] [] [] (fun _ => 1) = .ok j2 ∧
      mapLookup j2.Labels "job-name".toList = some j2.Name :=
  match (setupJob_twice scenarioDeployment [] [] [] (fun _ => 0) (fun _ => 1)).1 _ rfl with
  | ⟨j2, h2, _, _, _, _, _, _, hname, _, _⟩ => ⟨j2, h2, hname⟩

/-! ## Textual replacement -/

theorem isPrefixOf_append_sep (old : Str) (sep : Char) (hsep : sep ∉ old) (xs ys : Str) :
    old.isPrefixOf (xs ++ sep :: ys) = old.isPrefixOf xs ∧
      (old.isPrefixOf xs = true → old.length ≤ xs.length) := by
  induction old generalizing xs with
  | nil => simp
  | cons o os ih =>
    have ho : o ≠ sep := fun h => hsep (h ▸ List.mem_cons_self o os)
    have hos : sep ∉ os := fun h => hsep (List.mem_cons_of_mem o h)
    cases xs with
    | nil => simp [List.isPrefixOf, ho]
    | cons x xs' =>
      have := ih hos xs'
      simp only [List.cons_append, List.isPrefixOf, List.length_cons]
      refine ⟨?_, ?_⟩
      · show (o == x && os.isPrefixOf (xs' ++ sep :: ys)) = _
        rw [this.1]
      intro h
      have h2 : os.isPrefixOf xs' = true := by
        simp only [Bool.and_eq_true] at h
        exact h.2
      have := this.2 h2
      omega

theorem stringsReplaceScan_head (old new : Str) (c : Char) (cs : Str) (hc : c ∉ old)
    (hold : old ≠ []) :
    stringsReplaceScan old new 0 (c :: cs) = c :: stringsReplaceScan old new 0 cs := by
  cases old with
  | nil => exact absurd rfl hold
  | cons o os =>
    have ho : o ≠ c := fun h => hc (h ▸ List.mem_cons_self o os)
    simp [stringsReplaceScan, List.isPrefixOf, ho]

theorem stringsReplaceScan_blank (old new : Str) (xs ys : Str) (hxs : ∀ c ∈ xs, c ∉ old)
    (hold : old ≠ []) :
    stringsReplaceScan old new 0 (xs ++ ys) = xs ++ stringsReplaceScan old new 0 ys := by
  induction xs with
  | nil => rfl
  | cons x xs' ih =>
    rw [List.cons_append, stringsReplaceScan_head old new x _ (hxs x (List.mem_cons_self x xs')) hold,
      ih (fun c hc => hxs c (List.mem_cons_of_mem x hc)), List.cons_append]

theorem stringsReplaceScan_sep (old new : Str) (sep : Char) (hsep : sep ∉ old) (hold : old ≠ [])
    (ys : Str) (xs : Str) (k : Nat) (hk : k ≤ xs.length) :
    stringsReplaceScan old new k (xs ++ sep :: ys)
      = stringsReplaceScan old new k xs ++ sep :: stringsReplaceScan old new 0 ys := by
  induction xs generalizing k with
  | nil =>
    have hk0 : k = 0 := by simpa using hk
    subst hk0
    rw [List.nil_append, stringsReplaceScan_head old new sep ys hsep hold]
    rfl
  | cons x xs' ih =>
    cases k with
    | succ k' =>
      have hk' : k' ≤ xs'.length := by simpa using hk
      simpa [stringsReplaceScan] using ih k' hk'
    | zero =>
      have hp := isPrefixOf_append_sep old sep hsep (x :: xs') ys
      rw [List.cons_append] at hp ⊢
      by_cases hpre : old.isPrefixOf (x :: xs') = true
      · have hlen := hp.2 hpre
        have hlen' : old.length - 1 ≤ xs'.length := by
          simp only [List.length_cons] at hlen
          omega
        have hpre' : old.isPrefixOf (x :: (xs' ++ sep :: ys)) = true := hp.1.trans hpre
        simp only [stringsReplaceScan, hpre, hpre', if_true, ih _ hlen', List.append_assoc]
      · have hpre' : ¬ old.isPrefixOf (x :: (xs' ++ sep :: ys)) = true := by
          rw [hp.1]; exact hpre
        simp only [stringsReplaceScan, hpre, hpre', ih 0 (Nat.zero_le _)]
        simp

theorem stringsReplaceScan_mem (old new : Str) (s : Str) (k : Nat) :
    ∀ c ∈ stringsReplaceScan old new k s, c ∈ s ∨ c ∈ new := by
  induction s generalizing k with
  | nil => intro c hc; simp [stringsReplaceScan] at hc
  | cons x xs ih =>
    intro c hc
    cases k with
    | succ k' =>
      simp only [stringsReplaceScan] at hc
      rcases ih k' c hc with h | h
      · exact Or.inl (List.mem_cons_of_mem x h)
      · exact Or.inr h
    | zero =>
      simp only [stringsReplaceScan] at hc
      split at hc
      · rcases List.mem_append.1 hc with h | h
        · exact Or.inr h
        · rcases ih _ c h with h' | h'
          · exact Or.inl (List.mem_cons_of_mem x h')
          · exact Or.inr h'
      · rcases List.mem_cons.1 hc with h | h
        · exact Or.inl (h ▸ List.mem_cons_self x xs)
        · rcases ih _ c h with h' | h'
          · exact Or.inl (List.mem_cons_of_mem x h')
          · exact Or.inr h'

theorem token_ne_nil : JobifyCommandToken ≠ [] := by decide

theorem stringsReplaceAll_token (s u : Str) :
    stringsReplaceAll s JobifyCommandToken u = stringsReplaceScan JobifyCommandToken u 0 s := by
  simp [stringsReplaceAll, token_ne_nil]

theorem space_not_in_token (c : Char) (hc : isSpace c = true) : c ∉ JobifyCommandToken := by
  simp only [isSpace, Bool.or_eq_true, beq_iff_eq] at hc
  rcases hc with ((h | h) | h) | h <;> subst h <;> decide

theorem blank_not_in_token (s : Str) (hs : isBlank s) : ∀ c ∈ s, c ∉ JobifyCommandToken :=
  fun c hc => space_not_in_token c (hs c hc)

theorem replace_renderElem (u : Str) (e : TemplateElem) (rest : Str)
    (hb : isBlank e.before) (ha : isBlank e.after) :
    stringsReplaceScan JobifyCommandToken u 0 (renderElem e ++ rest)
      = renderElem (substElem u e) ++ stringsReplaceScan JobifyCommandToken u 0 rest := by
  have hshape : renderElem e ++ rest
      = e.before ++ ('"' :: (e.text ++ '"' :: (e.after ++ rest))) := by
    simp [renderElem]
  rw [hshape, stringsReplaceScan_blank _ _ _ _ (blank_not_in_token _ hb) token_ne_nil,
    stringsReplaceScan_head _ _ _ _ (by decide) token_ne_nil,
    stringsReplaceScan_sep _ _ '"' (by decide) token_ne_nil _ _ 0 (Nat.zero_le _),
    stringsReplaceScan_blank _ _ _ _ (blank_not_in_token _ ha) token_ne_nil]
  simp [renderElem, substElem, stringsReplaceAll_token]

theorem replace_renderElems (u : Str) (elems : List TemplateElem) (rest : Str)
    (hblank : ∀ e ∈ elems, isBlank e.before ∧ isBlank e.after) :
    stringsReplaceScan JobifyCommandToken u 0 (renderElems elems ++ rest)
      = renderElems (elems.map (substElem u))
          ++ stringsReplaceScan JobifyCommandToken u 0 rest := by
  induction elems with
  | nil => rfl
  | cons e es ih =>
    have he := hblank e (List.mem_cons_self e es)
    have hes : ∀ x ∈ es, isBlank x.before ∧ isBlank x.after :=
      fun x hx => hblank x (List.mem_cons_of_mem e hx)
    cases es with
    | nil =>
      simpa [renderElems] using replace_renderElem u e rest he.1 he.2
    | cons e' es' =>
      have hshape : renderElems (e :: e' :: es') ++ rest
          = renderElem e ++ (',' :: (renderElems (e' :: es') ++ rest)) := by
        simp [renderElems]
      rw [hshape, replace_renderElem u e _ he.1 he.2,
        stringsReplaceScan_head _ _ _ _ (by decide) token_ne_nil, ih hes]
      simp [renderElems]

theorem replace_renderArray (u lead inner trail : Str) (elems : List TemplateElem)
    (hlead : isBlank lead) (hinner : isBlank inner) (htrail : isBlank trail)
    (hblank : ∀ e ∈ elems, isBlank e.before ∧ isBlank e.after) :
    stringsReplaceAll (renderArray lead inner elems trail) JobifyCommandToken u
      = renderArray lead inner (elems.map (substElem u)) trail := by
  rw [stringsReplaceAll_token]
  unfold renderArray
  rw [stringsReplaceScan_blank _ _ _ _ (blank_not_in_token _ hlead) token_ne_nil,
    stringsReplaceScan_head _ _ _ _ (by decide) token_ne_nil,
    stringsReplaceScan_blank _ _ _ _ (blank_not_in_token _ hinner) token_ne_nil,
    replace_renderElems u elems _ hblank,
    stringsReplaceScan_head _ _ _ _ (by decide) token_ne_nil]
  have htr := stringsReplaceScan_blank JobifyCommandToken u trail []
    (blank_not_in_token _ htrail) token_ne_nil
  simp only [List.append_nil] at htr
  rw [htr]
  simp [stringsReplaceScan]

/-! ## Decoding an array of plain string literals -/

theorem next_space_init (c : Char) (hc : isSpace c = true) :
    DecodeState.init.next c = DecodeState.init := by
  simp [DecodeState.next, DecodeState.init, Scanner.reset, Scanner.next, stateBeginValue, hc]

theorem next_space_array (step : ScanStep) (acc : List Str) (c : Char) (hc : isSpace c = true)
    (hstep : step = ScanStep.beginValueOrEmpty ∨ step = ScanStep.beginValue ∨
      step = ScanStep.endValue) :
    (arrayState step acc).next c = arrayState step acc := by
  rcases hstep with h | h | h <;> subst h <;>
    simp [DecodeState.next, arrayState, Scanner.next, stateBeginValue, stateBeginValueOrEmpty,
      stateEndValue, hc]

theorem next_space_done (acc : List Str) (c : Char) (hc : isSpace c = true) :
    (doneState acc).next c = doneState acc := by
  simp [DecodeState.next, doneState, Scanner.next, stateEndTop, hc]

theorem next_open : DecodeState.init.next '[' = arrayState ScanStep.beginValueOrEmpty [] := by
  rfl

theorem next_quote (step : ScanStep) (acc : List Str)
    (hstep : step = ScanStep.beginValueOrEmpty ∨ step = ScanStep.beginValue) :
    (arrayState step acc).next '"' = literalState acc [] := by
  rcases hstep with h | h <;> subst h <;> rfl

theorem next_plain (acc : List Str) (raw : Str) (c : Char) (hc : isPlain c = true) :
    (literalState acc raw).next c = literalState acc (raw ++ [c]) := by
  simp only [isPlain, decide_eq_true_eq] at hc
  simp [DecodeState.next, literalState, Scanner.next, stateInString, hc.1, hc.2.1, hc.2.2]

theorem next_close_quote (acc : List Str) (raw : Str) :
    (literalState acc raw).next '"' = arrayState ScanStep.endValue (acc ++ [unquote raw]) := by
  rfl

theorem next_comma (acc : List Str) :
    (arrayState ScanStep.endValue acc).next ',' = arrayState ScanStep.beginValue acc := by
  rfl

theorem next_close (step : ScanStep) (acc : List Str)
    (hstep : step = ScanStep.beginValueOrEmpty ∨ step = ScanStep.endValue) :
    (arrayState step acc).next ']' = doneState acc := by
  rcases hstep with h | h <;> subst h <;> rfl

theorem run_fixed (d : DecodeState) (s : Str) (h : ∀ c ∈ s, d.next c = d) :
    s.foldl DecodeState.next d = d := by
  induction s with
  | nil => rfl
  | cons c cs ih =>
    rw [List.foldl_cons, h c (List.mem_cons_self c cs)]
    exact ih (fun x hx => h x (List.mem_cons_of_mem c hx))

theorem run_blank_array (step : ScanStep) (acc : List Str) (s : Str) (hs : isBlank s)
    (hstep : step = ScanStep.beginValueOrEmpty ∨ step = ScanStep.beginValue ∨
      step = ScanStep.endValue) :
    s.foldl DecodeState.next (arrayState step acc) = arrayState step acc :=
  run_fixed _ s (fun c hc => next_space_array step acc c (hs c hc) hstep)

theorem run_plain (acc : List Str) (s raw : Str) (hs : ∀ c ∈ s, isPlain c = true) :
    s.foldl DecodeState.next (literalState acc raw) = literalState acc (raw ++ s) := by
  induction s generalizing raw with
  | nil => simp
  | cons c cs ih =>
    rw [List.foldl_cons, next_plain acc raw c (hs c (List.mem_cons_self c cs)),
      ih (raw ++ [c]) (fun x hx => hs x (List.mem_cons_of_mem c hx))]
    simp

theorem unquote_plain (s : Str) (hs : ∀ c ∈ s, isPlain c = true) : unquote s = s := by
  unfold unquote
  induction s with
  | nil => rfl
  | cons c cs ih =>
    have hc := hs c (List.mem_cons_self c cs)
    simp only [isPlain, decide_eq_true_eq] at hc
    simp only [unquoteScan, hc.2.1, if_false]
    rw [ih (fun x hx => hs x (List.mem_cons_of_mem c hx))]

theorem run_elem (step : ScanStep) (acc : List Str) (e : TemplateElem)
    (hstep : step = ScanStep.beginValueOrEmpty ∨ step = ScanStep.beginValue)
    (hb : isBlank e.before) (ha : isBlank e.after) (ht : ∀ c ∈ e.text, isPlain c = true) :
    (renderElem e).foldl DecodeState.next (arrayState step acc)
      = arrayState ScanStep.endValue (acc ++ [e.text]) := by
  have hstep' : step = ScanStep.beginValueOrEmpty ∨ step = ScanStep.beginValue ∨
      step = ScanStep.endValue := by
    rcases hstep with h | h
    · exact Or.inl h
    · exact Or.inr (Or.inl h)
  unfold renderElem
  rw [List.foldl_append, run_blank_array step acc _ hb hstep', List.foldl_cons,
    next_quote step acc hstep, List.foldl_append, run_plain acc _ [] ht, List.foldl_cons,
    List.nil_append, next_close_quote, unquote_plain _ ht,
    run_blank_array _ _ _ ha (Or.inr (Or.inr rfl))]

theorem run_elems (step : ScanStep) (acc : List Str) (e : TemplateElem) (es : List TemplateElem)
    (hstep : step = ScanStep.beginValueOrEmpty ∨ step = ScanStep.beginValue)
    (hblank : ∀ x ∈ e :: es, isBlank x.before ∧ isBlank x.after)
    (hplain : ∀ x ∈ e :: es, ∀ c ∈ x.text, isPlain c = true) :
    (renderElems (e :: es)).foldl DecodeState.next (arrayState step acc)
      = arrayState ScanStep.endValue (acc ++ (e :: es).map (·.text)) := by
  induction es generalizing e acc step with
  | nil =>
    have he := hblank e (List.mem_cons_self e [])
    simpa [renderElems] using
      run_elem step acc e hstep he.1 he.2 (hplain e (List.mem_cons_self e []))
  | cons e' es' ih =>
    have he := hblank e (List.mem_cons_self e _)
    have hrest := ih (ScanStep.beginValue) (acc ++ [e.text]) e' (Or.inr rfl)
      (fun x hx => hblank x (List.mem_cons_of_mem e hx))
      (fun x hx => hplain x (List.mem_cons_of_mem e hx))
    simp only [renderElems]
    rw [List.foldl_append, run_elem step acc e hstep he.1 he.2 (hplain e (List.mem_cons_self e _)),
      List.foldl_cons, next_comma, hrest]
    simp

theorem run_array (lead inner trail : Str) (elems : List TemplateElem)
    (hlead : isBlank lead) (hinner : isBlank inner) (htrail : isBlank trail)
    (hblank : ∀ e ∈ elems, isBlank e.before ∧ isBlank e.after)
    (hplain : ∀ e ∈ elems, ∀ c ∈ e.text, isPlain c = true) :
    (renderArray lead inner elems trail).foldl DecodeState.next DecodeState.init
      = doneState (elems.map (·.text)) := by
  unfold renderArray
  rw [List.foldl_append, run_fixed _ lead (fun c hc => next_space_init c (hlead c hc)),
    List.foldl_cons, next_open, List.foldl_append,
    run_blank_array _ _ _ hinner (Or.inl rfl), List.foldl_append]
  cases elems with
  | nil =>
    simp only [renderElems, List.foldl_nil, List.foldl_cons, List.map_nil]
    rw [next_close _ _ (Or.inl rfl)]
    exact run_fixed _ trail (fun c hc => next_space_done [] c (htrail c hc))
  | cons e es =>
    rw [run_elems _ [] e es (Or.inl rfl) hblank hplain, List.foldl_cons,
      next_close _ _ (Or.inr rfl), List.nil_append]
    exact run_fixed _ trail (fun c hc => next_space_done _ c (htrail c hc))

theorem run_scan (s : Str) (d : DecodeState) :
    (s.foldl DecodeState.next d).scan = s.foldl Scanner.next d.scan := by
  induction s generalizing d with
  | nil => rfl
  | cons c cs ih =>
    rw [List.foldl_cons, List.foldl_cons, ih]
    congr 1
    unfold DecodeState.next
    dsimp only
    split
    · split <;> rfl
    · split
      · rfl
      · split
        · split
          · rfl
          · split <;> rfl
        · split
          · split <;> rfl
          · rfl

/-- The decoder returns the texts of an array of plain string literals, in order,
and no error. -/
theorem jsonUnmarshal_renderArray (lead inner trail : Str) (elems : List TemplateElem)
    (hlead : isBlank lead) (hinner : isBlank inner) (htrail : isBlank trail)
    (hblank : ∀ e ∈ elems, isBlank e.before ∧ isBlank e.after)
    (hplain : ∀ e ∈ elems, ∀ c ∈ e.text, isPlain c = true) :
    jsonUnmarshal (renderArray lead inner elems trail) = (elems.map (·.text), none) := by
  have hrun := run_array lead inner trail elems hlead hinner htrail hblank hplain
  have hvalid : checkValid (renderArray lead inner elems trail) = true := by
    have hs := run_scan (renderArray lead inner elems trail) DecodeState.init
    rw [hrun] at hs
    unfold checkValid
    have : (DecodeState.init).scan = Scanner.reset := rfl
    rw [this] at hs
    rw [← hs]
    rfl
  unfold jsonUnmarshal
  rw [if_pos hvalid]
  simp only [hrun]
  rfl

/-! ## Command resolution -/

theorem stringsReplaceAll_token_self (u : Str) :
    stringsReplaceAll JobifyCommandToken JobifyCommandToken u = u := by
  rw [stringsReplaceAll_token]
  simp [JobifyCommandToken, stringsReplaceScan, List.isPrefixOf]

/-- C6. When the command template is a JSON array of string literals written
without escape sequences (any JSON white space around the brackets, the literals
and the commas; no double quote, backslash or control character inside a literal)
and the user command contains no double quote, backslash or control character,
`setupCommandArray` returns the texts of the template's literals, in order and as
many as there are, each with every occurrence of `$JOBIFY_COMMAND` replaced by the
user command as `strings.Replace` does it, in one pass: a literal that is exactly
the placeholder becomes the user command, whatever the user command contains. -/
theorem setupCommandArray_substitutes (d : Deployment) (u lead inner trail : Str)
    (elems : List TemplateElem)
    (htemplate : mapIndex d.Annotations CommandTemplateAnnotationKey
      = renderArray lead inner elems trail)
    (hlead : isBlank lead) (hinner : isBlank inner) (htrail : isBlank trail)
    (hblank : ∀ e ∈ elems, isBlank e.before ∧ isBlank e.after)
    (hplain : ∀ e ∈ elems, ∀ c ∈ e.text, isPlain c = true)
    (hu : ∀ c ∈ u, isPlain c = true) :
    setupCommandArray d u
      = elems.map (fun e => stringsReplaceAll e.text JobifyCommandToken u) ∧
    (setupCommandArray d u).length = elems.length ∧
    stringsReplaceAll JobifyCommandToken JobifyCommandToken u = u := by
  have hmain : setupCommandArray d u
      = elems.map (fun e => stringsReplaceAll e.text JobifyCommandToken u) := by
    have hblank' : ∀ e ∈ elems.map (substElem u), isBlank e.before ∧ isBlank e.after := by
      intro e he
      obtain ⟨e0, he0, rfl⟩ := List.mem_map.1 he
      exact hblank e0 he0
    have hplain' : ∀ e ∈ elems.map (substElem u), ∀ c ∈ e.text, isPlain c = true := by
      intro e he c hc
      obtain ⟨e0, he0, rfl⟩ := List.mem_map.1 he
      have hc' : c ∈ stringsReplaceScan JobifyCommandToken u 0 e0.text := by
        simpa [substElem, stringsReplaceAll_token] using hc
      rcases stringsReplaceScan_mem _ _ _ _ c hc' with h | h
      · exact hplain e0 he0 c h
      · exact hu c h
    have htok : "$JOBIFY_COMMAND".toList = JobifyCommandToken := rfl
    unfold setupCommandArray
    simp only [htemplate, htok]
    rw [replace_renderArray u lead inner trail elems hlead hinner htrail hblank,
      jsonUnmarshal_renderArray lead inner trail _ hlead hinner htrail hblank' hplain']
    simp [List.map_map, substElem, Function.comp_def]
  refine ⟨hmain, ?_, stringsReplaceAll_token_self u⟩
  rw [hmain, List.length_map]

/-- C6 at the template `["sh","-c","$JOBIFY_COMMAND"]` and the user command
`echo hi`: the result is `["sh","-c","echo hi"]`. -/
theorem setupCommandArray_substitutes_witness :
    setupCommandArray shellDeployment "echo hi".toList
      = ["sh".toList, "-c".toList, "echo hi".toList] :=
  (setupCommandArray_substitutes shellDeployment "echo hi".toList [] [] []
      [ { before := [], text := "sh".toList, after := [] },
        { before := [], text := "-c".toList, after := [] },
        { before := [], text := "$JOBIFY_COMMAND".toList, after := [] } ]
      (by decide) (fun _ h => nomatch h) (fun _ h => nomatch h) (fun _ h => nomatch h)
      (by simp [isBlank]) (by decide) (by decide)).1.trans (by decide)

/-- Replacement is single-pass and the template may be laid out with white space:
the placeholder inside the user command is not expanded again. -/
theorem setupCommandArray_single_pass_sample :
    setupCommandArray
        (mkDeployment
          (some [(CommandTemplateAnnotationKey,
            " [ \"sh\" ,\n\t\"-c\", \"run $JOBIFY_COMMAND;$JOBIFY_COMMAND\" ] ".toList)])
          (some []) [plainContainer "web".toList "app:1.0".toList])
        "a $JOBIFY_COMMAND b".toList
      = ["sh".toList, "-c".toList, "run a $JOBIFY_COMMAND b;a $JOBIFY_COMMAND b".toList] := by
  decide

/-- C1, as stated, fails: with the template `["sh","-c","$JOBIFY_COMMAND"]` and the
user command `echo "hi"` the substituted text is not valid JSON, `json.Unmarshal`
returns a syntax error, and `setupCommandArray` returns the nil argument list as
its result: no error reaches the caller. -/
theorem setupCommandArray_swallows_decoding_failure :
    stringsReplaceAll (mapIndex shellDeployment.Annotations CommandTemplateAnnotationKey)
        JobifyCommandToken "echo \"hi\"".toList
      = "[\"sh\",\"-c\",\"echo \"hi\"\"]".toList ∧
    jsonUnmarshal "[\"sh\",\"-c\",\"echo \"hi\"\"]".toList = ([], some JsonError.syntaxError) ∧
    setupCommandArray shellDeployment "echo \"hi\"".toList = [] :=
  ⟨by decide, by decide, by decide⟩

/-- C1, amended. For every deployment and user command such that the template
text with every `$JOBIFY_COMMAND` replaced by the user command is not
syntactically valid JSON, `json.Unmarshal` reports a syntax error and leaves the
target untouched, and `setupCommandArray`, which discards that error, returns the
nil argument list. -/
theorem setupCommandArray_invalid_json (d : Deployment) (u : Str)
    (h : checkValid
      (stringsReplaceAll (mapIndex d.Annotations CommandTemplateAnnotationKey)
        JobifyCommandToken u) = false) :
    jsonUnmarshal
        (stringsReplaceAll (mapIndex d.Annotations CommandTemplateAnnotationKey)
          JobifyCommandToken u)
      = ([], some JsonError.syntaxError) ∧
    setupCommandArray d u = [] := by
  have hj : jsonUnmarshal
      (stringsReplaceAll (mapIndex d.Annotations CommandTemplateAnnotationKey)
        JobifyCommandToken u) = ([], some JsonError.syntaxError) := by
    unfold jsonUnmarshal
    rw [h]
    rfl
  refine ⟨hj, ?_⟩
  have htok : "$JOBIFY_COMMAND".toList = JobifyCommandToken := rfl
  unfold setupCommandArray
  simp only [htok, hj]

/-- The amended C1 at the template `["sh","-c","$JOBIFY_COMMAND"]` and the user
command `echo "hi" && echo "bye"`. -/
theorem setupCommandArray_invalid_json_witness :
    setupCommandArray shellDeployment "echo \"hi\" && echo \"bye\"".toList = [] :=
  (setupCommandArray_invalid_json shellDeployment "echo \"hi\" && echo \"bye\"".toList
    (by decide)).2

/-! ## End to end -/

/-- C10, behaviour of the code on the scenario deployment when its pod template
has no annotations (a nil map): the deployment has one container and passes
`validateDeployment`, the command resolves to `["node","migrate.js"]`, and
`setupJob` panics on the write to the nil annotation map of the copied template
instead of producing a job, whatever the random draws. -/
theorem setupJob_panics_on_nil_template_annotations :
    1 ≤ scenarioDeploymentBareTemplate.Spec.Template.Spec.Containers.length ∧
    validateDeployment scenarioDeploymentBareTemplate = .ok () ∧
    setupCommandArray scenarioDeploymentBareTemplate "migrate.js".toList
      = ["node".toList, "migrate.js".toList] ∧
    ∀ rnd, setupJob scenarioDeploymentBareTemplate
        (setupCommandArray scenarioDeploymentBareTemplate "migrate.js".toList) []
        "migrate.js".toList rnd
      = .error GoPanic.nilMapAssignment :=
  ⟨by decide, by decide, by decide, fun _ => rfl⟩

theorem indexOfName_of_mem (v : Str) (l : List Container) (h : ∃ c ∈ l, c.Name = v) :
    ∃ i, indexOfName v l = some i ∧ i < l.length ∧ l[i]?.map (·.Name) = some v := by
  induction l with
  | nil =>
    obtain ⟨c, hc, _⟩ := h
    cases hc
  | cons x xs ih =>
    by_cases hx : x.Name = v
    · exact ⟨0, by simp [indexOfName, hx], by simp, by simp [hx]⟩
    · have hrest : ∃ c ∈ xs, c.Name = v := by
        obtain ⟨c, hc, hcv⟩ := h
        rcases List.mem_cons.1 hc with rfl | hmem
        · exact absurd hcv hx
        · exact ⟨c, hmem, hcv⟩
      obtain ⟨i, hi, hlt, hname⟩ := ih hrest
      refine ⟨i + 1, by simp [indexOfName, hx, hi], by simpa using hlt, ?_⟩
      simpa using hname

theorem validateDeployment_ok (d : Deployment) (hv : validateDeployment d = .ok ()) :
    d.Spec.Template.Spec.Containers.length ≤ 1 ∨
      ∃ v, mapLookup d.Annotations PrimaryContainerAnnotationKey = some v ∧
        ∃ c ∈ d.Spec.Template.Spec.Containers, c.Name = v := by
  unfold validateDeployment at hv
  cases hT : mapLookup d.Annotations CommandTemplateAnnotationKey with
  | none => simp [hT] at hv
  | some t =>
    by_cases hgt : d.Spec.Template.Spec.Containers.length > 1
    · cases hP : mapLookup d.Annotations PrimaryContainerAnnotationKey with
      | none => simp [hT, hgt, hP] at hv
      | some v =>
        by_cases hany : d.Spec.Template.Spec.Containers.any (fun c => decide (c.Name = v)) = true
        · exact Or.inr ⟨v, rfl, (any_name_iff _ v).1 hany⟩
        · simp only [hT, hgt, hP, hany, if_true] at hv
          cases hv
    · exact Or.inl (by omega)

/-- On a deployment that `validateDeployment` accepts and that has a container,
`getPrimaryContainer` returns an index inside the container list. -/
theorem getPrimaryContainer_of_valid (d : Deployment) (hv : validateDeployment d = .ok ())
    (hlen : 1 ≤ d.Spec.Template.Spec.Containers.length) :
    ∃ p, getPrimaryContainer d = .ok p ∧ p < d.Spec.Template.Spec.Containers.length := by
  have hchar := validateDeployment_ok d hv
  unfold getPrimaryContainer
  by_cases hgt : d.Spec.Template.Spec.Containers.length > 1
  · rcases hchar with hle | ⟨v, hv', hex⟩
    · omega
    · obtain ⟨i, hi, hlt, _⟩ := indexOfName_of_mem v _ hex
      refine ⟨i, ?_, hlt⟩
      simp [hgt, mapIndex, hv', hi]
  · exact ⟨0, by simp [hgt], by omega⟩

/-- The end-to-end derivation when the pod template carries an annotation map:
for every deployment with at least one container that `validateDeployment`
accepts, every user command and an empty override, `setupJob` returns a job whose
primary container has the resolved command, whose images are those of the
source, with restart policy `Never`, backoff limit 2, deadline 86400 seconds and
the namespace of the deployment. -/
theorem setupJob_end_to_end (d : Deployment) (u : Str) (rnd : Nat → Nat)
    (anns : List (Str × Str)) (hanns : d.Spec.Template.Annotations = some anns)
    (hv : validateDeployment d = .ok ())
    (hlen : 1 ≤ d.Spec.Template.Spec.Containers.length) :
    ∃ job p, setupJob d (setupCommandArray d u) [] u rnd = .ok job ∧
      getPrimaryContainer d = .ok p ∧
      job.Spec.Template.Spec.Containers[p]?.map (·.Command) = some (setupCommandArray d u) ∧
      job.Spec.Template.Spec.Containers.map (·.Image)
        = d.Spec.Template.Spec.Containers.map (·.Image) ∧
      job.Spec.Template.Spec.RestartPolicy = "Never".toList ∧
      job.Spec.BackoffLimit = some 2 ∧
      job.Spec.ActiveDeadlineSeconds = some 86400 ∧
      job.Namespace = d.Namespace := by
  obtain ⟨p, hp, hlt⟩ := getPrimaryContainer_of_valid d hv hlen
  have hlt' : p < (stripProbes d.Spec.Template.Spec.Containers).length := by
    simpa [stripProbes] using hlt
  obtain ⟨c, hc⟩ : ∃ c, (stripProbes d.Spec.Template.Spec.Containers)[p]? = some c :=
    ⟨_, List.getElem?_eq_getElem hlt'⟩
  have hset : setCommand (stripProbes d.Spec.Template.Spec.Containers) p (setupCommandArray d u)
      = .ok ((stripProbes d.Spec.Template.Spec.Containers).set p
          { c with Command := setupCommandArray d u }) := by
    simp [setCommand, hc]
  have hjob : setupJob d (setupCommandArray d u) [] u rnd = .ok
      (assembleJob d (getDeploymentName d ++ "-".toList ++ randomString 5 rnd) u
        ((((stripProbes d.Spec.Template.Spec.Containers).set p
          { c with Command := setupCommandArray d u })[p]?.map (·.Name)).getD [])
        { Labels := some []
          Annotations := some (mapStore anns
            "cluster-autoscaler.kubernetes.io/safe-to-evict".toList "false".toList)
          Spec :=
            { Containers := (stripProbes d.Spec.Template.Spec.Containers).set p
                { c with Command := setupCommandArray d u }
              RestartPolicy := "Never".toList
              ShareProcessNamespace := some true } }) := by
    unfold setupJob
    simp only [hanns, hp, ne_eq, not_true_eq_false, if_false, hset]
  refine ⟨_, p, hjob, hp, ?_, ?_, rfl, rfl, rfl, rfl⟩
  · simp only [assembleJob]
    rw [List.getElem?_set_self hlt']
    rfl
  · simp only [assembleJob]
    rw [map_set_same (·.Image) _ p c { c with Command := setupCommandArray d u } hc rfl,
      stripProbes_map (·.Image) _ (fun _ => rfl)]

/-- The end-to-end scenario with an annotation map on the pod template: the job
has the command `["node","migrate.js"]`, the image `app:1.0`, restart policy
`Never`, backoff limit 2 and the namespace of the deployment. -/
theorem setupJob_end_to_end_sample :
    Except.map (fun j => j.Spec.Template.Spec.Containers.map (·.Command))
        (setupJob scenarioDeployment
          (setupCommandArray scenarioDeployment "migrate.js".toList) []
          "migrate.js".toList (fun _ => 0))
      = .ok [["node".toList, "migrate.js".toList]] ∧
    Except.map (fun j => j.Spec.Template.Spec.Containers.map (·.Image))
        (setupJob scenarioDeployment
          (setupCommandArray scenarioDeployment "migrate.js".toList) []
          "migrate.js".toList (fun _ => 0))
      = .ok ["app:1.0".toList] ∧
    Except.map (fun j => (j.Spec.Template.Spec.RestartPolicy, j.Spec.BackoffLimit, j.Namespace))
        (setupJob scenarioDeployment
          (setupCommandArray scenarioDeployment "migrate.js".toList) []
          "migrate.js".toList (fun _ => 0))
      = .ok ("Never".toList, some 2, "prod".toList) :=
  ⟨by decide, by decide, by decide⟩

/-! ## Validation and the primary container lookup -/

/-- When the pod template has an annotation map and the primary container index
is inside the container list, `setupJob` returns a job. -/
theorem setupJob_succeeds (d : Deployment) (cmd : List Str) (ov u : Str) (rnd : Nat → Nat)
    (anns : List (Str × Str)) (p : Nat)
    (hanns : d.Spec.Template.Annotations = some anns)
    (hp : getPrimaryContainer d = .ok p)
    (hlt : p < d.Spec.Template.Spec.Containers.length) :
    ∃ job, setupJob d cmd ov u rnd = .ok job := by
  obtain ⟨cs, hcs, hlen⟩ : ∃ cs,
      (if ov ≠ [] then overrideImage d.Spec.Template.Spec.Containers p ov
        else .ok d.Spec.Template.Spec.Containers) = .ok cs ∧
      cs.length = d.Spec.Template.Spec.Containers.length := by
    by_cases hov : ov ≠ []
    · rw [if_pos hov]
      unfold overrideImage
      rw [List.getElem?_eq_getElem hlt]
      exact ⟨_, rfl, by simp⟩
    · rw [if_neg hov]
      exact ⟨_, rfl, rfl⟩
  have hlt' : p < (stripProbes cs).length := by
    simpa [stripProbes, hlen] using hlt
  obtain ⟨cs', hcs'⟩ : ∃ cs', setCommand (stripProbes cs) p cmd = .ok cs' := by
    unfold setCommand
    rw [List.getElem?_eq_getElem hlt']
    exact ⟨_, rfl⟩
  unfold setupJob
  simp only [hanns, hp, hcs, hcs']
  exact ⟨_, rfl⟩

theorem indexOfName_name (v : Str) (l : List Container) (i : Nat) (c : Container)
    (hi : indexOfName v l = some i) (hc : l[i]? = some c) : c.Name = v := by
  induction l generalizing i with
  | nil => simp [indexOfName] at hi
  | cons x xs ih =>
    unfold indexOfName at hi
    by_cases hx : x.Name = v
    · rw [if_pos hx] at hi
      cases hi
      simp at hc
      rw [← hc]
      exact hx
    · rw [if_neg hx] at hi
      cases hrest : indexOfName v xs with
      | none => simp [hrest] at hi
      | some j =>
        simp only [hrest, Option.map_some', Option.some.injEq] at hi
        subst hi
        simp at hc
        exact ih j hrest hc

/-- C12, as stated, fails: `validateDeployment` accepts a deployment that has a
command template and no container; `getPrimaryContainer` then returns the index
0, which is outside the empty container list, and `setupJob` panics on its
access to `Containers[0]`. -/
theorem getPrimaryContainer_out_of_bounds_without_containers :
    validateDeployment emptyDeployment = .ok () ∧
    getPrimaryContainer emptyDeployment = .ok 0 ∧
    emptyDeployment.Spec.Template.Spec.Containers.length = 0 ∧
    emptyDeployment.Spec.Template.Spec.Containers[0]? = none ∧
    setupJob emptyDeployment ["true".toList] [] "true".toList (fun _ => 0)
      = .error GoPanic.indexOutOfRange :=
  ⟨by decide, by decide, by decide, by decide, by decide⟩

/-- C12, amended. For every deployment with at least one container that
`validateDeployment` accepts, `getPrimaryContainer` does not panic and returns
the index of an existing container; with two or more containers that container
bears the name given by the primary container annotation; and `setupJob`, for
any command, override, user command and random draws, neither hits the
"Primary container not found" panic nor indexes outside the container list. -/
theorem getPrimaryContainer_safe_after_validation (d : Deployment)
    (hv : validateDeployment d = .ok ())
    (hlen : 1 ≤ d.Spec.Template.Spec.Containers.length) :
    (∃ p c, getPrimaryContainer d = .ok p ∧
      p < d.Spec.Template.Spec.Containers.length ∧
      d.Spec.Template.Spec.Containers[p]? = some c ∧
      (2 ≤ d.Spec.Template.Spec.Containers.length →
        mapLookup d.Annotations PrimaryContainerAnnotationKey = some c.Name)) ∧
    ∀ (cmd : List Str) (ov u : Str) (rnd : Nat → Nat),
      setupJob d cmd ov u rnd ≠ .error GoPanic.primaryContainerNotFound ∧
      setupJob d cmd ov u rnd ≠ .error GoPanic.indexOutOfRange := by
  obtain ⟨p, hp, hlt⟩ := getPrimaryContainer_of_valid d hv hlen
  have hc : d.Spec.Template.Spec.Containers[p]?
      = some (d.Spec.Template.Spec.Containers[p]) := List.getElem?_eq_getElem hlt
  constructor
  · refine ⟨p, _, hp, hlt, hc, ?_⟩
    intro h2
    have hgt : d.Spec.Template.Spec.Containers.length > 1 := h2
    rcases validateDeployment_ok d hv with hle | ⟨v, hv', _⟩
    · omega
    · unfold getPrimaryContainer at hp
      simp only [hgt, if_true, mapIndex, hv', Option.getD_some] at hp
      cases hi : indexOfName v d.Spec.Template.Spec.Containers with
      | none => simp [hi] at hp
      | some i =>
        simp only [hi, Except.ok.injEq] at hp
        subst hp
        rw [hv', indexOfName_name v _ i _ hi hc]
  · intro cmd ov u rnd
    cases hanns : d.Spec.Template.Annotations with
    | none =>
      have : setupJob d cmd ov u rnd = .error GoPanic.nilMapAssignment := by
        unfold setupJob
        simp only [hanns]
      rw [this]
      exact ⟨by simp, by simp⟩
    | some anns =>
      obtain ⟨job, hjob⟩ := setupJob_succeeds d cmd ov u rnd anns p hanns hp hlt
      rw [hjob]
      exact ⟨by simp, by simp⟩

/-- The amended C12 at `aliasedDeployment`, whose primary container `sidecar` is
the second of two: `setupJob` does not fail on the lookup. -/
theorem getPrimaryContainer_safe_after_validation_witness :
    setupJob aliasedDeployment ["ls -l".toList] [] "ls -l".toList (fun _ => 0)
      ≠ .error GoPanic.primaryContainerNotFound ∧
    setupJob aliasedDeployment ["ls -l".toList] [] "ls -l".toList (fun _ => 0)
      ≠ .error GoPanic.indexOutOfRange :=
  (getPrimaryContainer_safe_after_validation aliasedDeployment (by decide) (by decide)).2
    ["ls -l".toList] [] "ls -l".toList (fun _ => 0)

/-! ## Provenance annotations -/

theorem getDeploymentName_eq (d : Deployment) :
    getDeploymentName d = (mapLookup d.Annotations DeploymentAliasAnnotationKey).getD d.Name := by
  unfold getDeploymentName
  cases mapLookup d.Annotations DeploymentAliasAnnotationKey <;> rfl

/-- The annotations of an assembled job, read key by key. -/
theorem assembleJob_annotations (d : Deployment) (jobName u primaryName : Str)
    (t : PodTemplateSpec) :
    mapLookup (assembleJob d jobName u primaryName t).Annotations SourceDeploymentAnnotationKey
      = some d.Name ∧
    mapLookup (assembleJob d jobName u primaryName t).Annotations SourceAliasAnnotationKey
      = some (getDeploymentName d) ∧
    mapLookup (assembleJob d jobName u primaryName t).Annotations UserCommandAnnotationKey
      = some u ∧
    mapLookup (assembleJob d jobName u primaryName t).Annotations PrimaryContainerAnnotationKey
      = some primaryName ∧
    mapLookup (assembleJob d jobName u primaryName t).Annotations LogsURLTemplateAnnotationKey
      = mapLookup d.Annotations LogsURLTemplateAnnotationKey ∧
    ∀ k, k ≠ SourceDeploymentAnnotationKey → k ≠ SourceAliasAnnotationKey →
      k ≠ UserCommandAnnotationKey → k ≠ PrimaryContainerAnnotationKey →
      k ≠ LogsURLTemplateAnnotationKey →
      mapLookup (assembleJob d jobName u primaryName t).Annotations k = none := by
  have e1 : (SourceDeploymentAnnotationKey != LogsURLTemplateAnnotationKey) = true := by decide
  have e2 : (SourceAliasAnnotationKey != LogsURLTemplateAnnotationKey) = true := by decide
  have e3 : (UserCommandAnnotationKey != LogsURLTemplateAnnotationKey) = true := by decide
  have e4 : (PrimaryContainerAnnotationKey != LogsURLTemplateAnnotationKey) = true := by decide
  have a1 : (SourceDeploymentAnnotationKey == LogsURLTemplateAnnotationKey) = false := by decide
  have a2 : (SourceAliasAnnotationKey == LogsURLTemplateAnnotationKey) = false := by decide
  have a3 : (UserCommandAnnotationKey == LogsURLTemplateAnnotationKey) = false := by decide
  have a4 : (PrimaryContainerAnnotationKey == LogsURLTemplateAnnotationKey) = false := by decide
  have b1 : (SourceAliasAnnotationKey == SourceDeploymentAnnotationKey) = false := by decide
  have b2 : (UserCommandAnnotationKey == SourceDeploymentAnnotationKey) = false := by decide
  have b3 : (UserCommandAnnotationKey == SourceAliasAnnotationKey) = false := by decide
  have b4 : (PrimaryContainerAnnotationKey == SourceDeploymentAnnotationKey) = false := by decide
  have b5 : (PrimaryContainerAnnotationKey == SourceAliasAnnotationKey) = false := by decide
  have b6 : (PrimaryContainerAnnotationKey == UserCommandAnnotationKey) = false := by decide
  have c1 : (LogsURLTemplateAnnotationKey == SourceDeploymentAnnotationKey) = false := by decide
  have c2 : (LogsURLTemplateAnnotationKey == SourceAliasAnnotationKey) = false := by decide
  have c3 : (LogsURLTemplateAnnotationKey == UserCommandAnnotationKey) = false := by decide
  have c4 : (LogsURLTemplateAnnotationKey == PrimaryContainerAnnotationKey) = false := by decide
  have hself : ∀ k : Str, (k == k) = true := fun k => beq_self_eq_true k
  have hne : ∀ k k' : Str, k ≠ k' → (k == k') = false :=
    fun k k' h => beq_eq_false_iff_ne.2 h
  unfold assembleJob
  cases hl : mapLookup d.Annotations LogsURLTemplateAnnotationKey with
  | none =>
    simp only [mapLookup, List.lookup, hself, a1, a2, a3, a4, b1, b2, b3, b4, b5, b6, c1, c2,
      c3, c4]
    refine ⟨trivial, trivial, trivial, trivial, trivial, ?_⟩
    intro k h1 h2 h3 h4 _
    simp only [hne k _ h1, hne k _ h2, hne k _ h3, hne k _ h4]
  | some v =>
    simp only [mapLookup, mapStore, List.filter, e1, e2, e3, e4, List.lookup, hself, a1, a2, a3,
      a4, b1, b2, b3, b4, b5, b6, c1, c2, c3, c4]
    refine ⟨trivial, trivial, trivial, trivial, trivial, ?_⟩
    intro k h1 h2 h3 h4 h5
    simp only [hne k _ h1, hne k _ h2, hne k _ h3, hne k _ h4, hne k _ h5]

/-- C11. On every deployment on which `setupJob` succeeds, the annotations of the
job map `source-deployment` to the literal name of the deployment, `source-alias`
to the value of the `deployment-alias` annotation when that key is present (even
with the empty value) and to the name of the deployment otherwise, `user-command`
to the raw user command, and `primary-container` to the name of the container at
the index returned by `getPrimaryContainer` (the same in the source and in the
job); `log-url-template` is present on the job exactly when it is present on the
deployment, with the same value; every other key is absent. -/
theorem setupJob_provenance_annotations (d : Deployment) (cmd : List Str) (ov u : Str)
    (rnd : Nat → Nat) (job : Job) (h : setupJob d cmd ov u rnd = .ok job) :
    mapLookup job.Annotations SourceDeploymentAnnotationKey = some d.Name ∧
    mapLookup job.Annotations SourceAliasAnnotationKey
      = some ((mapLookup d.Annotations DeploymentAliasAnnotationKey).getD d.Name) ∧
    mapLookup job.Annotations UserCommandAnnotationKey = some u ∧
    (∃ p c, getPrimaryContainer d = .ok p ∧
      d.Spec.Template.Spec.Containers[p]? = some c ∧
      job.Spec.Template.Spec.Containers[p]?.map (·.Name) = some c.Name ∧
      mapLookup job.Annotations PrimaryContainerAnnotationKey = some c.Name) ∧
    mapLookup job.Annotations LogsURLTemplateAnnotationKey
      = mapLookup d.Annotations LogsURLTemplateAnnotationKey ∧
    ∀ k, k ≠ SourceDeploymentAnnotationKey → k ≠ SourceAliasAnnotationKey →
      k ≠ UserCommandAnnotationKey → k ≠ PrimaryContainerAnnotationKey →
      k ≠ LogsURLTemplateAnnotationKey →
      mapLookup job.Annotations k = none := by
  have hnames := setupJob_containers_map (·.Name) d cmd ov u rnd job
    (fun _ _ => rfl) (fun _ => rfl) (fun _ _ => rfl) h
  obtain ⟨anns, p, cs, cs', _, hp, _, hcs', rfl⟩ := setupJob_ok d cmd ov u rnd job h
  obtain ⟨c2, hc2, hcs'eq⟩ := setCommand_ok _ _ _ _ hcs'
  have hnames' : cs'.map (·.Name) = d.Spec.Template.Spec.Containers.map (·.Name) := hnames
  have hlt' : p < cs'.length := by
    have : p < (stripProbes cs).length := by
      by_contra hge
      have hnone : (stripProbes cs)[p]? = none := List.getElem?_eq_none (by omega)
      rw [hnone] at hc2
      cases hc2
    rw [hcs'eq]
    simpa using this
  have hlt : p < d.Spec.Template.Spec.Containers.length := by
    have := congrArg List.length hnames'
    simp only [List.length_map] at this
    omega
  have hjobname : cs'[p]?.map (·.Name) = some (d.Spec.Template.Spec.Containers[p]).Name := by
    rw [← List.getElem?_map, hnames', List.getElem?_map, List.getElem?_eq_getElem hlt]
    rfl
  have hA := assembleJob_annotations d
    (getDeploymentName d ++ "-".toList ++ randomString 5 rnd) u
    ((cs'[p]?.map (·.Name)).getD [])
    { Labels := some []
      Annotations := some (mapStore anns
        "cluster-autoscaler.kubernetes.io/safe-to-evict".toList "false".toList)
      Spec := { Containers := cs', RestartPolicy := "Never".toList,
                ShareProcessNamespace := some true } }
  refine ⟨hA.1, ?_, hA.2.2.1, ?_, hA.2.2.2.2.1, hA.2.2.2.2.2⟩
  · rw [← getDeploymentName_eq]
    exact hA.2.1
  · refine ⟨p, _, hp, List.getElem?_eq_getElem hlt, hjobname, ?_⟩
    rw [hA.2.2.2.1, hjobname]
    rfl

/-- C11 at `aliasedDeployment`: the job is `aliasedJob`; its alias annotation is
the empty value of the deployment alias, its primary container is `sidecar`, and
the log URL template is copied. -/
theorem setupJob_provenance_annotations_witness :
    mapLookup aliasedJob.Annotations SourceDeploymentAnnotationKey
      = some aliasedDeployment.Name ∧
    mapLookup aliasedJob.Annotations SourceAliasAnnotationKey
      = some ((mapLookup aliasedDeployment.Annotations DeploymentAliasAnnotationKey).getD
          aliasedDeployment.Name) ∧
    mapLookup aliasedJob.Annotations UserCommandAnnotationKey = some "ls -l".toList ∧
    (∃ p c, getPrimaryContainer aliasedDeployment = .ok p ∧
      aliasedDeployment.Spec.Template.Spec.Containers[p]? = some c ∧
      aliasedJob.Spec.Template.Spec.Containers[p]?.map (·.Name) = some c.Name ∧
      mapLookup aliasedJob.Annotations PrimaryContainerAnnotationKey = some c.Name) ∧
    mapLookup aliasedJob.Annotations LogsURLTemplateAnnotationKey
      = mapLookup aliasedDeployment.Annotations LogsURLTemplateAnnotationKey ∧
    ∀ k, k ≠ SourceDeploymentAnnotationKey → k ≠ SourceAliasAnnotationKey →
      k ≠ UserCommandAnnotationKey → k ≠ PrimaryContainerAnnotationKey →
      k ≠ LogsURLTemplateAnnotationKey →
      mapLookup aliasedJob.Annotations k = none :=
  setupJob_provenance_annotations aliasedDeployment ["ls -l".toList] [] "ls -l".toList
    (fun _ => 0) aliasedJob (by decide)

/-- The values read from `aliasedJob`: the alias is empty, the primary container
is `sidecar`, the log URL template is the one of the deployment. -/
theorem setupJob_provenance_sample :
    mapLookup aliasedJob.Annotations SourceDeploymentAnnotationKey = some "demo".toList ∧
    mapLookup aliasedJob.Annotations SourceAliasAnnotationKey = some [] ∧
    mapLookup aliasedJob.Annotations PrimaryContainerAnnotationKey = some "sidecar".toList ∧
    mapLookup aliasedJob.Annotations LogsURLTemplateAnnotationKey
      = some "https://logs.example/$JOB".toList :=
  ⟨by decide, by decide, by decide, by decide⟩

end Jobify
